import Mathlib

/-!
Shallow embedding of the vibesurfer core (ocean mesh engine, FFT analysis
worker, audio driver, band-to-terrain mapper) in Lean 4, with theorems
checking the natural-language specification against the code.

Modelling conventions:
* `f32`/`f64` arithmetic is modelled by exact rationals (`ℚ`).
* External crates are modelled as parameters: the OpenSimplex noise
  generator (`noise` crate) becomes an abstract function `ℚ → ℚ → ℚ → ℚ`,
  the forward FFT (`rustfft` crate) an abstract `List (ℚ × ℚ) → List (ℚ × ℚ)`,
  the complex magnitude (`num_complex`) an abstract `ℚ × ℚ → ℚ`, and the
  standard-library cosine an abstract `ℚ → ℚ`.
* Rust `Vec` indexing is modelled with `List.getD`; in all states built by
  the embedded constructors the indices are in bounds, as in the source.
-/

namespace Vibesurfer

/-- Three-component vector, modelling `glam::Vec3` over exact rationals. -/
structure Vec3 where
  x : ℚ
  y : ℚ
  z : ℚ
deriving DecidableEq, Repr

/-- Vertex data for the ocean mesh (`src/ocean/mesh.rs`): position + UV.
The WGSL padding fields carry no information and are omitted. -/
structure Vertex where
  position : Vec3
  uv : ℚ × ℚ
deriving DecidableEq, Repr

instance : Inhabited Vertex := ⟨⟨⟨0, 0, 0⟩, (0, 0)⟩⟩

/-- Ocean simulation physics parameters (`src/params/ocean.rs`). -/
structure OceanPhysics where
  grid_size : ℕ
  grid_spacing_m : ℚ
  wave_speed : ℚ
  base_terrain_amplitude_m : ℚ
  base_terrain_frequency : ℚ
  detail_amplitude_m : ℚ
  detail_frequency : ℚ
  base_line_width : ℚ
  noise_seed : ℕ
deriving DecidableEq, Repr

/-- Default ocean physics parameters (`OceanPhysics::default`). -/
def OceanPhysics.default : OceanPhysics where
  grid_size := 512
  grid_spacing_m := 2
  wave_speed := 1/2
  base_terrain_amplitude_m := 100
  base_terrain_frequency := 3/1000
  detail_amplitude_m := 2
  detail_frequency := 1/10
  base_line_width := 1/50
  noise_seed := 42

/-- Mapping from audio frequency bands to visual parameters
(`src/params/ocean.rs`). -/
structure AudioReactiveMapping where
  bass_to_amplitude_scale : ℚ
  mid_to_frequency_scale : ℚ
  high_to_glow_scale : ℚ
deriving DecidableEq, Repr

/-- Default audio-reactive mapping (`AudioReactiveMapping::default`). -/
def AudioReactiveMapping.default : AudioReactiveMapping where
  bass_to_amplitude_scale := 3
  mid_to_frequency_scale := 3/20
  high_to_glow_scale := 3/100

/-- Audio frequency band energies (`src/ocean/mod.rs`). -/
structure AudioBands where
  low : ℚ
  mid : ℚ
  high : ℚ
deriving DecidableEq, Repr

/-- Euclidean remainder on rationals, modelling `f32::rem_euclid` for a
positive modulus (the only way the source uses it): the representative of
`a` modulo `b` lying in `[0, b)`. -/
def remEuclid (a b : ℚ) : ℚ := a - b * ⌊a / b⌋

/-- Ocean grid mesh state (`src/ocean/mesh.rs`, struct `OceanGrid`).
The `noise` field models the `NoiseGenerator` (external OpenSimplex noise,
a pure function of its three arguments once seeded). -/
structure OceanGrid where
  vertices : List Vertex
  indices : List ℕ
  filtered_indices : List ℕ
  noise : ℚ → ℚ → ℚ → ℚ
  grid_size : ℕ
  grid_spacing : ℚ
  last_camera_pos : Vec3
  base_terrain_heights : List ℚ
  dirty_base_terrain : List Bool

/-- Row of freshly constructed vertices at grid row `z`
(inner loop of `OceanGrid::new`). -/
def newVertexRow (grid_size : ℕ) (grid_spacing half_size : ℚ) (z : ℕ) : List Vertex :=
  (List.range (grid_size + 1)).map fun (x : ℕ) =>
    { position := ⟨(x : ℚ) * grid_spacing - half_size, 0, (z : ℚ) * grid_spacing - half_size⟩
      uv := ((x : ℚ) / (grid_size : ℚ), (z : ℚ) / (grid_size : ℚ)) }

/-- Triangle indices of one grid cell `(x, z)` (inner loop of
`OceanGrid::new`): two triangles, counter-clockwise winding. -/
def cellIndices (grid_size z x : ℕ) : List ℕ :=
  let top_left := z * (grid_size + 1) + x
  let top_right := top_left + 1
  let bottom_left := (z + 1) * (grid_size + 1) + x
  let bottom_right := bottom_left + 1
  [top_left, bottom_left, top_right, top_right, bottom_left, bottom_right]

/-- Create a new ocean grid (`OceanGrid::new`). -/
def OceanGrid.new (noise : ℚ → ℚ → ℚ → ℚ) (physics : OceanPhysics) : OceanGrid :=
  let grid_size := physics.grid_size
  let grid_spacing := physics.grid_spacing_m
  let half_size := (grid_size : ℚ) * grid_spacing / 2
  let vertices := (List.range (grid_size + 1)).flatMap
    (newVertexRow grid_size grid_spacing half_size)
  let indices := (List.range grid_size).flatMap fun z =>
    (List.range grid_size).flatMap fun x => cellIndices grid_size z x
  { vertices := vertices
    indices := indices
    filtered_indices := indices
    noise := noise
    grid_size := grid_size
    grid_spacing := grid_spacing
    last_camera_pos := ⟨0, 0, 0⟩
    base_terrain_heights := List.replicate vertices.length 0
    dirty_base_terrain := List.replicate vertices.length true }

/-- Squared distance between two positions (`glam::Vec3::distance_squared`). -/
def distanceSquared (a b : Vec3) : ℚ :=
  (a.x - b.x) ^ 2 + (a.y - b.y) ^ 2 + (a.z - b.z) ^ 2

/-- Per-triangle predicate of `OceanGrid::filter_stretched_triangles`:
keep the triangle `(i0, i1, i2)` exactly when all three squared edge
lengths are strictly below `max_edge_sq` (the Rust `&&` chain as a
decidable conjunction). -/
def keepTriangle (vertices : List Vertex) (max_edge_sq : ℚ) (i0 i1 i2 : ℕ) : Prop :=
  distanceSquared (vertices.getD i0 default).position (vertices.getD i1 default).position
      < max_edge_sq
    ∧ distanceSquared (vertices.getD i1 default).position (vertices.getD i2 default).position
      < max_edge_sq
    ∧ distanceSquared (vertices.getD i2 default).position (vertices.getD i0 default).position
      < max_edge_sq

instance keepTriangle.instDecidable (vertices : List Vertex) (max_edge_sq : ℚ)
    (i0 i1 i2 : ℕ) : Decidable (keepTriangle vertices max_edge_sq i0 i1 i2) :=
  instDecidableAnd

/-- Triangle-filter loop of `OceanGrid::filter_stretched_triangles`: walk
the index list in chunks of three, keeping exactly the kept triangles.
The index lists built by `OceanGrid::new` always have length divisible by
three, so the catch-all case (a trailing chunk shorter than three, on
which the source would panic) never arises on reachable states. -/
def filterTriangles (vertices : List Vertex) (max_edge_sq : ℚ) : List ℕ → List ℕ
  | i0 :: i1 :: i2 :: rest =>
    if keepTriangle vertices max_edge_sq i0 i1 i2 then
      i0 :: i1 :: i2 :: filterTriangles vertices max_edge_sq rest
    else
      filterTriangles vertices max_edge_sq rest
  | _ => []

/-- Filter indices to remove stretched triangles
(`OceanGrid::filter_stretched_triangles`). -/
def OceanGrid.filter_stretched_triangles (g : OceanGrid) : OceanGrid :=
  let max_edge_length := g.grid_spacing * 10
  let max_edge_sq := max_edge_length * max_edge_length
  { g with filtered_indices := filterTriangles g.vertices max_edge_sq g.indices }

/-- Wrapped local x (or z) coordinate after the toroidal wrap step
(`OceanGrid::update`, the `rem_euclid` line). -/
def wrapCoord (half_size grid_world_size coord : ℚ) : ℚ :=
  remEuclid (coord + half_size) grid_world_size - half_size

/-- Wrap-detection condition of the `OceanGrid::update` loop (lines
computing `wrapped`): the vertex counts as wrapped this tick when either
wrapped coordinate differs from the advected one by more than the epsilon
`0.01`. `x1`/`z1` are the advected (post camera-delta) local coordinates. -/
def wrapDetected (half_size grid_world_size x1 z1 : ℚ) : Prop :=
  |wrapCoord half_size grid_world_size x1 - x1| > 1/100
    ∨ |wrapCoord half_size grid_world_size z1 - z1| > 1/100

instance wrapDetected.instDecidable (half_size grid_world_size x1 z1 : ℚ) :
    Decidable (wrapDetected half_size grid_world_size x1 z1) :=
  instDecidableOr

/-- Per-vertex body of the `OceanGrid::update` loop. Takes the vertex, its
cached base-terrain height and dirty flag, and returns the updated triple.
`noise` is the grid's noise generator; `dx`/`dz` are the camera delta. -/
def updateVertex (noise : ℚ → ℚ → ℚ → ℚ) (physics : OceanPhysics)
    (dx dz : ℚ) (camera_pos : Vec3) (half_size grid_world_size detail_t : ℚ)
    (detail_amplitude_m detail_frequency : ℚ)
    (v : Vertex) (cached : ℚ) (dirty : Bool) : Vertex × ℚ × Bool :=
  let x1 := v.position.x - dx
  let z1 := v.position.z - dz
  let wrapped_x := wrapCoord half_size grid_world_size x1
  let wrapped_z := wrapCoord half_size grid_world_size z1
  let x_world := camera_pos.x + wrapped_x
  let z_world := camera_pos.z + wrapped_z
  let base_height :=
    if wrapDetected half_size grid_world_size x1 z1 ∨ dirty = true then
      noise (x_world * physics.base_terrain_frequency)
        (z_world * physics.base_terrain_frequency) 0
        * physics.base_terrain_amplitude_m
    else cached
  let new_dirty : Bool :=
    if wrapDetected half_size grid_world_size x1 z1 ∨ dirty = true then false else dirty
  let detail_noise :=
    noise (x_world * detail_frequency) (z_world * detail_frequency) detail_t
  let detail_height := detail_noise * detail_amplitude_m
  (⟨⟨wrapped_x, base_height + detail_height, wrapped_z⟩, v.uv⟩, base_height, new_dirty)

/-- Update the ocean surface (`OceanGrid::update`): advect by the camera
delta, wrap toroidally, recompute base terrain for wrapped/dirty vertices,
add the detail layer, then filter stretched triangles. -/
def OceanGrid.update (g : OceanGrid) (time_s detail_amplitude_m detail_frequency : ℚ)
    (camera_pos : Vec3) (physics : OceanPhysics) : OceanGrid :=
  let detail_t := time_s * physics.wave_speed
  let dx := camera_pos.x - g.last_camera_pos.x
  let dz := camera_pos.z - g.last_camera_pos.z
  let grid_world_size := (g.grid_size : ℚ) * g.grid_spacing
  let half_size := grid_world_size / 2
  let results := (g.vertices.zip (g.base_terrain_heights.zip g.dirty_base_terrain)).map
    fun p => updateVertex g.noise physics dx dz camera_pos half_size grid_world_size
      detail_t detail_amplitude_m detail_frequency p.1 p.2.1 p.2.2
  let g' : OceanGrid :=
    { g with
      vertices := results.map (·.1)
      base_terrain_heights := results.map (·.2.1)
      dirty_base_terrain := results.map (·.2.2)
      last_camera_pos := camera_pos }
  g'.filter_stretched_triangles

/-- High-level ocean system (`src/ocean/system.rs`). -/
structure OceanSystem where
  grid : OceanGrid
  physics : OceanPhysics
  mapping : AudioReactiveMapping

/-- Create a new ocean system (`OceanSystem::new`). The noise generator is
the abstract external OpenSimplex sampler. -/
def OceanSystem.new (noise : ℚ → ℚ → ℚ → ℚ) (physics : OceanPhysics)
    (mapping : AudioReactiveMapping) : OceanSystem :=
  { grid := OceanGrid.new noise physics, physics := physics, mapping := mapping }

/-- Update the ocean simulation with audio-reactive modulation
(`OceanSystem::update`): map the band energies onto detail-layer
parameters, update the mesh, and return the rendering triple
`(detail_amplitude, detail_frequency, line_width)`. -/
def OceanSystem.update (s : OceanSystem) (time_s : ℚ) (audio_bands : AudioBands)
    (camera_pos : Vec3) : OceanSystem × (ℚ × ℚ × ℚ) :=
  let detail_amplitude := s.physics.detail_amplitude_m
    + audio_bands.low * s.mapping.bass_to_amplitude_scale
  let detail_frequency := s.physics.detail_frequency
    + audio_bands.mid * s.mapping.mid_to_frequency_scale
  let line_width := s.physics.base_line_width
    + audio_bands.high * s.mapping.high_to_glow_scale
  let grid' := s.grid.update time_s detail_amplitude detail_frequency camera_pos s.physics
  ({ s with grid := grid' }, (detail_amplitude, detail_frequency, line_width))

/-- FFT analysis configuration (`src/params/audio.rs`, struct `FFTConfig`). -/
structure FFTConfig where
  sample_rate_hz : ℕ
  fft_size : ℕ
  update_interval_ms : ℕ
  bass_range_hz : ℚ × ℚ
  mid_range_hz : ℚ × ℚ
  high_range_hz : ℚ × ℚ
deriving DecidableEq, Repr

/-- Default FFT configuration (`FFTConfig::default`). -/
def FFTConfig.default : FFTConfig where
  sample_rate_hz := 44100
  fft_size := 1024
  update_interval_ms := 50
  bass_range_hz := (20, 200)
  mid_range_hz := (200, 1000)
  high_range_hz := (1000, 4000)

/-- Convert a frequency in Hz to an FFT bin index (`FFTConfig::hz_to_bin`).
The Rust `as usize` cast truncates toward zero and saturates at zero for
negative values; on rationals that is `Int.toNat` of the floor for
non-negative inputs and `0` for negative ones, which `(⌊·⌋).toNat`
computes in both cases. -/
def FFTConfig.hz_to_bin (c : FFTConfig) (hz : ℚ) : ℕ :=
  (⌊hz * (c.fft_size : ℚ) / (c.sample_rate_hz : ℚ)⌋).toNat

/-- FFT bin range for bass frequencies (`FFTConfig::bass_bins`), as a
`(start, stop)` pair. -/
def FFTConfig.bass_bins (c : FFTConfig) : ℕ × ℕ :=
  (c.hz_to_bin c.bass_range_hz.1, c.hz_to_bin c.bass_range_hz.2)

/-- FFT bin range for mid frequencies (`FFTConfig::mid_bins`). -/
def FFTConfig.mid_bins (c : FFTConfig) : ℕ × ℕ :=
  (c.hz_to_bin c.mid_range_hz.1, c.hz_to_bin c.mid_range_hz.2)

/-- FFT bin range for high frequencies (`FFTConfig::high_bins`). -/
def FFTConfig.high_bins (c : FFTConfig) : ℕ × ℕ :=
  (c.hz_to_bin c.high_range_hz.1, c.hz_to_bin c.high_range_hz.2)

/-- Binary32 value of `std::f32::consts::PI` (the nearest `f32` to π),
as an exact rational. -/
def piF32 : ℚ := 13176795 / 4194304

/-- Hann window function (`hann_window` in `src/audio/fft.rs`),
parametrized by the cosine implementation (standard-library `f32::cos`,
an external transcendental function). -/
def hann_window (cosFn : ℚ → ℚ) (index size : ℕ) : ℚ :=
  1/2 * (1 - cosFn ((2 * piF32 * (index : ℚ)) / ((size : ℚ) - 1)))

/-- Mean magnitude over the half-open bin range `[lo, hi)` of a magnitude
list (band-energy reduction in the FFT worker): sum of the slice divided
by its length. -/
def bandEnergy (mags : List ℚ) (lo hi : ℕ) : ℚ :=
  ((mags.drop lo).take (hi - lo)).sum / ((hi - lo : ℕ) : ℚ)

/-- Band-energy snapshot computed by one productive FFT worker cycle from
the buffer contents (`spawn_fft_thread`, loop body, steps window → FFT →
band reduction). `cosFn` models `f32::cos`, `fftFn` the external
`rustfft` forward transform on complex samples (as pairs), and `normFn`
the external `num_complex` magnitude. -/
def computeBands (cosFn : ℚ → ℚ) (fftFn : List (ℚ × ℚ) → List (ℚ × ℚ))
    (normFn : ℚ × ℚ → ℚ) (config : FFTConfig) (buf : List ℚ) : AudioBands :=
  let fft_input := (List.range config.fft_size).map fun i =>
    (buf.getD i 0 * hann_window cosFn i config.fft_size, 0)
  let fft_output := fftFn fft_input
  let mags := fft_output.map normFn
  let bass_bins := config.bass_bins
  let mid_bins := config.mid_bins
  let high_bins := config.high_bins
  { low := bandEnergy mags bass_bins.1 bass_bins.2
    mid := bandEnergy mags mid_bins.1 mid_bins.2
    high := bandEnergy mags high_bins.1 high_bins.2 }

/-- Shared state touched by one FFT worker cycle: the raw-sample buffer
and the published band snapshot. -/
structure FftState where
  fft_buffer : List ℚ
  audio_bands : AudioBands
deriving DecidableEq, Repr

/-- One cycle of the FFT worker loop (`spawn_fft_thread`, loop body): if
the shared buffer holds at least `fft_size` samples, publish a new band
snapshot computed from the buffer and drain the first `fft_size / 2`
samples; otherwise do nothing. -/
def fftCycle (cosFn : ℚ → ℚ) (fftFn : List (ℚ × ℚ) → List (ℚ × ℚ))
    (normFn : ℚ × ℚ → ℚ) (config : FFTConfig) (s : FftState) : FftState :=
  if config.fft_size ≤ s.fft_buffer.length then
    { fft_buffer := s.fft_buffer.drop (config.fft_size / 2)
      audio_bands := computeBands cosFn fftFn normFn config s.fft_buffer }
  else s

/-- Audio block size (`audio_constants::BLOCK_SIZE`). -/
def BLOCK_SIZE : ℕ := 128

/-- Rust `f32::clamp`: clamp `x` into `[lo, hi]`. -/
def clampQ (x lo hi : ℚ) : ℚ := min (max x lo) hi

/-- Block-filling loop of the audio callback (`AudioSystem::new`, output
stream closure): repeatedly pull one block from the synthesis engine and
copy `min(remaining, BLOCK_SIZE)` clamped sample pairs until the requested
frame count is produced. The engine (external Glicol synthesizer) is
modelled as a function from the block number to the pair of channel
buffers; the result is the list of `(left, right)` frames written, in
order. -/
def audioCallbackLoop (engine : ℕ → (ℕ → ℚ) × (ℕ → ℚ)) :
    ℕ → ℕ → List (ℚ × ℚ)
  | _, 0 => []
  | blockIdx, r + 1 =>
    let buffers := engine blockIdx
    let samples_to_copy := min (r + 1) BLOCK_SIZE
    let frames := (List.range samples_to_copy).map fun i =>
      (clampQ (buffers.1 i) (-(1/2)) (1/2), clampQ (buffers.2 i) (-(1/2)) (1/2))
    frames ++ audioCallbackLoop engine (blockIdx + 1) (r + 1 - samples_to_copy)
  termination_by _ r => r
  decreasing_by
    simp only [samples_to_copy, BLOCK_SIZE]
    omega

/-- Frames produced by one audio callback invocation asked for
`frames_needed` stereo frames. -/
def audioCallback (engine : ℕ → (ℕ → ℚ) × (ℕ → ℚ)) (frames_needed : ℕ) :
    List (ℚ × ℚ) :=
  audioCallbackLoop engine 0 frames_needed

/-- Values written into the interleaved output buffer by one callback. -/
def callbackOutputData (engine : ℕ → (ℕ → ℚ) × (ℕ → ℚ)) (frames_needed : ℕ) :
    List ℚ :=
  (audioCallback engine frames_needed).flatMap fun f => [f.1, f.2]

/-- Left-channel values appended to the shared raw-sample buffer by one
callback. -/
def callbackFftAppended (engine : ℕ → (ℕ → ℚ) × (ℕ → ℚ)) (frames_needed : ℕ) :
    List ℚ :=
  (audioCallback engine frames_needed).map (·.1)

/-- Values written to the recording sink (WAV writer) by one callback:
left then right of each frame. -/
def callbackWavWritten (engine : ℕ → (ℕ → ℚ) × (ℕ → ℚ)) (frames_needed : ℕ) :
    List ℚ :=
  (audioCallback engine frames_needed).flatMap fun f => [f.1, f.2]

/-- Group an index list into triangles, three indices at a time (the
`chunks(3)` view used by the triangle filter). -/
def triples : List ℕ → List (ℕ × ℕ × ℕ)
  | i0 :: i1 :: i2 :: rest => (i0, i1, i2) :: triples rest
  | _ => []

/-- Per-tick vertex/height/dirty results of `OceanGrid::update` (the
body of its vertex loop, before the fields are written back). -/
def updatedResults (g : OceanGrid) (time_s detail_amplitude_m detail_frequency : ℚ)
    (camera_pos : Vec3) (physics : OceanPhysics) : List (Vertex × ℚ × Bool) :=
  (g.vertices.zip (g.base_terrain_heights.zip g.dirty_base_terrain)).map
    fun p => updateVertex g.noise physics (camera_pos.x - g.last_camera_pos.x)
      (camera_pos.z - g.last_camera_pos.z) camera_pos
      ((g.grid_size : ℚ) * g.grid_spacing / 2) ((g.grid_size : ℚ) * g.grid_spacing)
      (time_s * physics.wave_speed) detail_amplitude_m detail_frequency p.1 p.2.1 p.2.2

/-- Noise generator that is identically zero, a concrete instance of the
abstract external OpenSimplex sampler used for witness states. -/
def zeroNoise : ℚ → ℚ → ℚ → ℚ := fun _ _ _ => 0

/-- Physics parameters with a one-cell grid of spacing 1 (extent 1),
used by concrete witness states. -/
def tinyPhysics : OceanPhysics :=
  { OceanPhysics.default with grid_size := 1, grid_spacing_m := 1 }

/-- Concrete ocean-grid state whose single triangle has one squared edge
length exactly equal to the stretch threshold `(10 × grid_spacing)² = 100`
after the next update: the vertices sit at local `(0, ·, 0)` (no wrap, no
advection with a zero camera delta) and their cached base heights `0`,
`10`, `5` become the vertex heights when the detail amplitude is `0`. -/
def boundaryGrid : OceanGrid :=
  { vertices := [⟨⟨0, 99, 0⟩, (0, 0)⟩, ⟨⟨0, -3, 0⟩, (0, 0)⟩, ⟨⟨0, 7, 0⟩, (0, 0)⟩]
    indices := [0, 1, 2]
    filtered_indices := [0, 1, 2]
    noise := zeroNoise
    grid_size := 1
    grid_spacing := 1
    last_camera_pos := ⟨0, 0, 0⟩
    base_terrain_heights := [0, 10, 5]
    dirty_base_terrain := [false, false, false] }

/-- Physics parameters with zero base-terrain amplitude (the struct has
no validation rejecting this), used to exhibit a freshly created vertex
whose cached height already equals the base-terrain value while its dirty
flag is still set. -/
def flatPhysics : OceanPhysics :=
  { OceanPhysics.default with
      grid_size := 1
      grid_spacing_m := 1
      base_terrain_amplitude_m := 0 }

/-- Physics parameters with a 2×2-cell grid of spacing 1: the stretched
edge produced by the first-tick wrap has length `(grid_size − 1) ×
spacing = 1`, far below the `10 × spacing` filter threshold. -/
def smallPhysics : OceanPhysics :=
  { OceanPhysics.default with grid_size := 2, grid_spacing_m := 1 }

/-- Physics parameters with a 12×12-cell grid of spacing 1, the smallest
square grid whose first-tick stretched edges `(grid_size − 1) × spacing`
exceed the `10 × spacing` filter threshold. -/
def mediumPhysics : OceanPhysics :=
  { OceanPhysics.default with
      grid_size := 12
      grid_spacing_m := 1 }

/-- Synthesis engine stub producing constant out-of-range samples
(`7` on the left channel, `-3` on the right), a concrete instance of the
abstract external Glicol engine. -/
def constEngine : ℕ → (ℕ → ℚ) × (ℕ → ℚ) := fun _ => (fun _ => 7, fun _ => -3)

/-- Cosine stub (concrete instance of the abstract external `f32::cos`). -/
def zeroCos : ℚ → ℚ := fun _ => 0

/-- FFT stub (concrete instance of the abstract external `rustfft`
forward transform). -/
def idFft : List (ℚ × ℚ) → List (ℚ × ℚ) := fun l => l

/-- Magnitude stub (concrete instance of the abstract external
`num_complex` norm). -/
def zeroNorm : ℚ × ℚ → ℚ := fun _ => 0

/-- FFT worker state with a three-sample buffer (shorter than any
power-of-two window of the default size). -/
def shortFftState : FftState := ⟨[1, 2, 3], ⟨0, 0, 0⟩⟩

/-- Cache-validity invariant of the ocean grid for a fixed session
physics: whenever a vertex's dirty flag is clear, its cached base-terrain
height equals the base-terrain noise sampled at the vertex's current
world position (last camera position plus local position) scaled by the
base amplitude. -/
def cacheConsistent (physics : OceanPhysics) (g : OceanGrid) : Prop :=
  ∀ i, i < g.vertices.length → g.dirty_base_terrain.getD i true = false →
    g.base_terrain_heights.getD i 0 =
      g.noise ((g.last_camera_pos.x + (g.vertices.getD i default).position.x)
          * physics.base_terrain_frequency)
        ((g.last_camera_pos.z + (g.vertices.getD i default).position.z)
          * physics.base_terrain_frequency) 0
        * physics.base_terrain_amplitude_m

lemma remEuclid_eq_fract (a : ℚ) {b : ℚ} (hb : b ≠ 0) :
    remEuclid a b = b * Int.fract (a / b) := by
  unfold remEuclid
  rw [Int.fract, mul_sub, mul_div_cancel₀ _ hb]

lemma remEuclid_nonneg (a : ℚ) {b : ℚ} (hb : 0 < b) : 0 ≤ remEuclid a b := by
  rw [remEuclid_eq_fract a hb.ne']
  exact mul_nonneg hb.le (Int.fract_nonneg _)

lemma remEuclid_lt (a : ℚ) {b : ℚ} (hb : 0 < b) : remEuclid a b < b := by
  rw [remEuclid_eq_fract a hb.ne']
  calc b * Int.fract (a / b) < b * 1 :=
        (mul_lt_mul_left hb).mpr (Int.fract_lt_one _)
    _ = b := mul_one b

lemma remEuclid_eq_self {a b : ℚ} (h0 : 0 ≤ a) (hab : a < b) : remEuclid a b = a := by
  have hb : 0 < b := lt_of_le_of_lt h0 hab
  have hfloor : ⌊a / b⌋ = 0 := by
    rw [Int.floor_eq_zero_iff]
    constructor
    · exact div_nonneg h0 hb.le
    · rw [div_lt_one hb]; exact hab
  simp [remEuclid, hfloor]

lemma wrapCoord_range {ext : ℚ} (hext : 0 < ext) (c : ℚ) :
    -(ext / 2) ≤ wrapCoord (ext / 2) ext c ∧ wrapCoord (ext / 2) ext c < ext / 2 := by
  unfold wrapCoord
  have h1 := remEuclid_nonneg (c + ext / 2) hext
  have h2 := remEuclid_lt (c + ext / 2) hext
  constructor <;> linarith

lemma wrapCoord_eq_self {ext c : ℚ} (hext : 0 < ext)
    (h1 : -(ext / 2) ≤ c) (h2 : c < ext / 2) : wrapCoord (ext / 2) ext c = c := by
  unfold wrapCoord
  rw [remEuclid_eq_self (by linarith) (by linarith)]
  ring

lemma wrapCoord_sub (half ext c : ℚ) :
    wrapCoord half ext c - c = -(ext * ⌊(c + half) / ext⌋) := by
  unfold wrapCoord remEuclid
  ring

lemma wrapCoord_eq_of_small_diff {half ext c : ℚ} (hext : 1/100 < ext)
    (h : ¬ |wrapCoord half ext c - c| > 1/100) : wrapCoord half ext c = c := by
  rw [not_lt] at h
  rw [wrapCoord_sub] at h
  set k : ℤ := ⌊(c + half) / ext⌋ with hk
  have hzero : k = 0 := by
    by_contra hne
    have h1 : (1 : ℚ) ≤ |(k : ℚ)| := by
      rw [← Int.cast_abs]
      exact_mod_cast Int.one_le_abs hne
    have hext0 : (0 : ℚ) < ext := lt_trans (by norm_num) hext
    have : ext ≤ |(-(ext * (k : ℚ)))| := by
      rw [abs_neg, abs_mul, abs_of_pos hext0]
      nlinarith [abs_nonneg ((k : ℚ))]
    linarith
  have : wrapCoord half ext c - c = 0 := by
    rw [wrapCoord_sub, ← hk, hzero]
    simp
  linarith

lemma update_indices (g : OceanGrid) (t a f : ℚ) (cam : Vec3) (p : OceanPhysics) :
    (g.update t a f cam p).indices = g.indices := rfl

lemma update_grid_spacing (g : OceanGrid) (t a f : ℚ) (cam : Vec3) (p : OceanPhysics) :
    (g.update t a f cam p).grid_spacing = g.grid_spacing := rfl

lemma update_grid_size (g : OceanGrid) (t a f : ℚ) (cam : Vec3) (p : OceanPhysics) :
    (g.update t a f cam p).grid_size = g.grid_size := rfl

lemma update_last_camera_pos (g : OceanGrid) (t a f : ℚ) (cam : Vec3) (p : OceanPhysics) :
    (g.update t a f cam p).last_camera_pos = cam := rfl

lemma update_vertices (g : OceanGrid) (t a f : ℚ) (cam : Vec3) (p : OceanPhysics) :
    (g.update t a f cam p).vertices = (updatedResults g t a f cam p).map (·.1) := rfl

lemma update_heights (g : OceanGrid) (t a f : ℚ) (cam : Vec3) (p : OceanPhysics) :
    (g.update t a f cam p).base_terrain_heights =
      (updatedResults g t a f cam p).map (·.2.1) := rfl

lemma update_dirty (g : OceanGrid) (t a f : ℚ) (cam : Vec3) (p : OceanPhysics) :
    (g.update t a f cam p).dirty_base_terrain =
      (updatedResults g t a f cam p).map (·.2.2) := rfl

lemma update_filtered (g : OceanGrid) (t a f : ℚ) (cam : Vec3) (p : OceanPhysics) :
    (g.update t a f cam p).filtered_indices =
      filterTriangles ((updatedResults g t a f cam p).map (·.1))
        (g.grid_spacing * 10 * (g.grid_spacing * 10)) g.indices := rfl

lemma updateVertex_position_x (noise : ℚ → ℚ → ℚ → ℚ) (p : OceanPhysics)
    (dx dz : ℚ) (cam : Vec3) (half ext dt da df : ℚ) (v : Vertex) (c : ℚ) (d : Bool) :
    ((updateVertex noise p dx dz cam half ext dt da df v c d).1).position.x =
      wrapCoord half ext (v.position.x - dx) := rfl

lemma updateVertex_position_z (noise : ℚ → ℚ → ℚ → ℚ) (p : OceanPhysics)
    (dx dz : ℚ) (cam : Vec3) (half ext dt da df : ℚ) (v : Vertex) (c : ℚ) (d : Bool) :
    ((updateVertex noise p dx dz cam half ext dt da df v c d).1).position.z =
      wrapCoord half ext (v.position.z - dz) := rfl

lemma updateVertex_dirty_false (noise : ℚ → ℚ → ℚ → ℚ) (p : OceanPhysics)
    (dx dz : ℚ) (cam : Vec3) (half ext dt da df : ℚ) (v : Vertex) (c : ℚ) (d : Bool) :
    (updateVertex noise p dx dz cam half ext dt da df v c d).2.2 = false := by
  unfold updateVertex
  by_cases h : wrapDetected half ext (v.position.x - dx) (v.position.z - dz) ∨ d = true
  · simp [h]
  · have hd : d = false := by
      simpa using (not_or.mp h).2
    simp [h, hd]

lemma updateVertex_cached (noise : ℚ → ℚ → ℚ → ℚ) (p : OceanPhysics)
    (cam : Vec3) {ext : ℚ} (dt da df : ℚ) (v : Vertex) (c : ℚ)
    (hext : 0 < ext)
    (hx1 : -(ext / 2) ≤ v.position.x) (hx2 : v.position.x < ext / 2)
    (hz1 : -(ext / 2) ≤ v.position.z) (hz2 : v.position.z < ext / 2) :
    (updateVertex noise p 0 0 cam (ext / 2) ext dt da df v c false).2.1 = c := by
  have hwx : wrapCoord (ext / 2) ext v.position.x = v.position.x :=
    wrapCoord_eq_self hext hx1 hx2
  have hwz : wrapCoord (ext / 2) ext v.position.z = v.position.z :=
    wrapCoord_eq_self hext hz1 hz2
  have hnotdet : ¬ wrapDetected (ext / 2) ext v.position.x v.position.z := by
    unfold wrapDetected
    rw [hwx, hwz]
    simp
  unfold updateVertex
  simp only [sub_zero]
  simp [hnotdet]

lemma mem_update_vertices_range {g : OceanGrid} {t a f : ℚ} {cam : Vec3}
    {p : OceanPhysics} (hext : 0 < (g.grid_size : ℚ) * g.grid_spacing) :
    ∀ v ∈ (g.update t a f cam p).vertices,
      -((g.grid_size : ℚ) * g.grid_spacing / 2) ≤ v.position.x
      ∧ v.position.x < (g.grid_size : ℚ) * g.grid_spacing / 2
      ∧ -((g.grid_size : ℚ) * g.grid_spacing / 2) ≤ v.position.z
      ∧ v.position.z < (g.grid_size : ℚ) * g.grid_spacing / 2 := by
  intro v hv
  rw [update_vertices, List.mem_map] at hv
  obtain ⟨r, hr, hrv⟩ := hv
  rw [updatedResults, List.mem_map] at hr
  obtain ⟨q, _, hq⟩ := hr
  subst hrv
  rw [← hq]
  rw [updateVertex_position_x, updateVertex_position_z]
  obtain ⟨h1, h2⟩ := wrapCoord_range hext (q.1.position.x - (cam.x - g.last_camera_pos.x))
  obtain ⟨h3, h4⟩ := wrapCoord_range hext (q.1.position.z - (cam.z - g.last_camera_pos.z))
  exact ⟨h1, h2, h3, h4⟩

lemma update_dirty_all_false (g : OceanGrid) (t a f : ℚ) (cam : Vec3) (p : OceanPhysics) :
    ∀ d ∈ (g.update t a f cam p).dirty_base_terrain, d = false := by
  intro d hd
  rw [update_dirty, updatedResults, List.map_map, List.mem_map] at hd
  obtain ⟨q, _, hq⟩ := hd
  rw [← hq]
  exact updateVertex_dirty_false _ _ _ _ _ _ _ _ _ _ _ _ _

lemma update_noise (g : OceanGrid) (t a f : ℚ) (cam : Vec3) (p : OceanPhysics) :
    (g.update t a f cam p).noise = g.noise := rfl

lemma update_lengths (g : OceanGrid) (t a f : ℚ) (cam : Vec3) (p : OceanPhysics) :
    (g.update t a f cam p).base_terrain_heights.length =
      (g.update t a f cam p).vertices.length
    ∧ (g.update t a f cam p).dirty_base_terrain.length =
      (g.update t a f cam p).vertices.length := by
  rw [update_vertices, update_heights, update_dirty]
  simp

lemma map_heights_of_clean (noiseF : ℚ → ℚ → ℚ → ℚ) (p : OceanPhysics) (cam : Vec3)
    {ext : ℚ} (dt da df : ℚ) (hext : 0 < ext) :
    ∀ (vs : List Vertex) (hs : List ℚ) (ds : List Bool),
      (∀ v ∈ vs, -(ext / 2) ≤ v.position.x ∧ v.position.x < ext / 2
        ∧ -(ext / 2) ≤ v.position.z ∧ v.position.z < ext / 2) →
      (∀ d ∈ ds, d = false) →
      vs.length = hs.length → hs.length = ds.length →
      ((vs.zip (hs.zip ds)).map
        fun q => (updateVertex noiseF p 0 0 cam (ext / 2) ext dt da df q.1 q.2.1 q.2.2).2.1)
        = hs := by
  intro vs
  induction vs with
  | nil =>
    intro hs ds _ _ hlen1 _
    simp at hlen1
    simp [List.zip, (List.length_eq_zero.mp hlen1.symm)]
  | cons v vs ih =>
    intro hs ds hrange hds hlen1 hlen2
    match hs, ds with
    | [], _ => simp at hlen1
    | h :: hs', [] => simp at hlen2
    | h :: hs', d :: ds' =>
      have hd : d = false := hds d (List.mem_cons_self d ds')
      obtain ⟨hx1, hx2, hz1, hz2⟩ := hrange v (List.mem_cons_self v vs)
      simp only [List.zip_cons_cons, List.map_cons]
      rw [hd]
      rw [updateVertex_cached noiseF p cam dt da df v h hext hx1 hx2 hz1 hz2]
      congr 1
      exact ih hs' ds'
        (fun w hw => hrange w (List.mem_cons_of_mem v hw))
        (fun e he => hds e (List.mem_cons_of_mem d he))
        (by simpa using hlen1) (by simpa using hlen2)

/-- C1: after any call to `OceanGrid::update` — for any elapsed time,
detail parameters, camera position, physics and prior vertex state — every
vertex's local x and z coordinate lies in `[−half, half)` where
`half = grid_size × grid_spacing / 2`, the wrap being a true modulo
(`rem_euclid`), so the invariant holds for camera deltas of any size.
The only assumption is that the grid extent is positive, as guaranteed by
the validated configuration. -/
theorem claim1_wrap_invariant (g : OceanGrid) (t a f : ℚ) (cam : Vec3)
    (p : OceanPhysics) (hext : 0 < (g.grid_size : ℚ) * g.grid_spacing) :
    ∀ v ∈ (g.update t a f cam p).vertices,
      -((g.grid_size : ℚ) * g.grid_spacing / 2) ≤ v.position.x
      ∧ v.position.x < (g.grid_size : ℚ) * g.grid_spacing / 2
      ∧ -((g.grid_size : ℚ) * g.grid_spacing / 2) ≤ v.position.z
      ∧ v.position.z < (g.grid_size : ℚ) * g.grid_spacing / 2 :=
  mem_update_vertices_range hext

/-- Witness for C1 at a concrete state: the extent of `boundaryGrid` is
positive and the head vertex of its updated mesh satisfies the wrap
invariant. -/
theorem claim1_wrap_invariant_witness :
    (0 : ℚ) < (boundaryGrid.grid_size : ℚ) * boundaryGrid.grid_spacing
    ∧ (-((boundaryGrid.grid_size : ℚ) * boundaryGrid.grid_spacing / 2)
        ≤ (Vertex.mk ⟨0, 0, 0⟩ (0, 0)).position.x
      ∧ (Vertex.mk ⟨0, 0, 0⟩ (0, 0)).position.x
        < (boundaryGrid.grid_size : ℚ) * boundaryGrid.grid_spacing / 2
      ∧ -((boundaryGrid.grid_size : ℚ) * boundaryGrid.grid_spacing / 2)
        ≤ (Vertex.mk ⟨0, 0, 0⟩ (0, 0)).position.z
      ∧ (Vertex.mk ⟨0, 0, 0⟩ (0, 0)).position.z
        < (boundaryGrid.grid_size : ℚ) * boundaryGrid.grid_spacing / 2) := by
  constructor
  · norm_num [boundaryGrid]
  · exact claim1_wrap_invariant boundaryGrid 0 0 0 ⟨0, 0, 0⟩ tinyPhysics
      (by norm_num [boundaryGrid]) (Vertex.mk ⟨0, 0, 0⟩ (0, 0))
      (by norm_num [boundaryGrid, tinyPhysics, OceanPhysics.default, OceanGrid.update,
        OceanGrid.filter_stretched_triangles, updatedResults, updateVertex, wrapDetected,
        wrapCoord, remEuclid, zeroNoise])

/-- C9: the dirty-flag array is all-true at construction and all-false
when any call to `OceanGrid::update` returns (each flag is cleared the
tick its vertex recomputes and no code path sets a flag back to true), so
every cache entry is repopulated in the same tick it becomes stale. -/
theorem claim9_dirty_flags_lifecycle (noiseF : ℚ → ℚ → ℚ → ℚ) (p : OceanPhysics)
    (g : OceanGrid) (t a f : ℚ) (cam : Vec3) (p2 : OceanPhysics) :
    (OceanGrid.new noiseF p).dirty_base_terrain =
      List.replicate (OceanGrid.new noiseF p).vertices.length true
    ∧ (g.update t a f cam p2).dirty_base_terrain =
      List.replicate (g.update t a f cam p2).dirty_base_terrain.length false := by
  constructor
  · rfl
  · exact List.eq_replicate_iff.mpr ⟨rfl, update_dirty_all_false g t a f cam p2⟩

/-- C3: if two consecutive calls to `update` pass the same camera
position, the second call leaves every cached base-terrain height
unchanged — the wrap detection fires for no vertex (all local coordinates
already lie in `[−half, half)`) and the cached value is reused — whatever
the elapsed-time, detail-amplitude, detail-frequency and physics
arguments of either call. -/
theorem claim3_zero_delta_reuses_cache (g : OceanGrid) (t1 a1 f1 t2 a2 f2 : ℚ)
    (cam : Vec3) (p1 p2 : OceanPhysics)
    (hext : 0 < (g.grid_size : ℚ) * g.grid_spacing) :
    ((g.update t1 a1 f1 cam p1).update t2 a2 f2 cam p2).base_terrain_heights
      = (g.update t1 a1 f1 cam p1).base_terrain_heights := by
  rw [update_heights, updatedResults]
  rw [update_last_camera_pos, update_grid_size, update_grid_spacing, update_noise]
  simp only [sub_self]
  rw [List.map_map]
  exact map_heights_of_clean g.noise p2 cam (t2 * p2.wave_speed) a2 f2 hext
    (g.update t1 a1 f1 cam p1).vertices
    (g.update t1 a1 f1 cam p1).base_terrain_heights
    (g.update t1 a1 f1 cam p1).dirty_base_terrain
    (mem_update_vertices_range hext)
    (update_dirty_all_false g t1 a1 f1 cam p1)
    (update_lengths g t1 a1 f1 cam p1).1.symm
    (by rw [(update_lengths g t1 a1 f1 cam p1).1, (update_lengths g t1 a1 f1 cam p1).2])

/-- Witness for C3 at a concrete state: a second update of `boundaryGrid`
with the same camera position leaves the cached heights unchanged. -/
theorem claim3_zero_delta_reuses_cache_witness :
    (0 : ℚ) < (boundaryGrid.grid_size : ℚ) * boundaryGrid.grid_spacing
    ∧ ((boundaryGrid.update 0 0 0 ⟨0, 0, 0⟩ tinyPhysics).update 1 2 3 ⟨0, 0, 0⟩
        tinyPhysics).base_terrain_heights
      = (boundaryGrid.update 0 0 0 ⟨0, 0, 0⟩ tinyPhysics).base_terrain_heights := by
  constructor
  · norm_num [boundaryGrid]
  · exact claim3_zero_delta_reuses_cache boundaryGrid 0 0 0 1 2 3 ⟨0, 0, 0⟩
      tinyPhysics tinyPhysics (by norm_num [boundaryGrid])

lemma triples_filterTriangles (vs : List Vertex) (m : ℚ) :
    ∀ l : List ℕ, triples (filterTriangles vs m l)
      = (triples l).filter fun tr => decide (keepTriangle vs m tr.1 tr.2.1 tr.2.2)
  | i0 :: i1 :: i2 :: rest => by
    by_cases h : keepTriangle vs m i0 i1 i2
    · simp only [filterTriangles, if_pos h, triples, List.filter_cons,
        triples_filterTriangles vs m rest]
      simp [h]
    · simp only [filterTriangles, if_neg h, triples, List.filter_cons,
        triples_filterTriangles vs m rest]
      simp [h]
  | [] => by simp [filterTriangles, triples]
  | [_] => by simp [filterTriangles, triples]
  | [_, _] => by simp [filterTriangles, triples]

lemma keep_of_mem_triples_filterTriangles {vs : List Vertex} {m : ℚ} {l : List ℕ}
    {tr : ℕ × ℕ × ℕ} (h : tr ∈ triples (filterTriangles vs m l)) :
    keepTriangle vs m tr.1 tr.2.1 tr.2.2 := by
  rw [triples_filterTriangles] at h
  exact of_decide_eq_true (List.mem_filter.mp h).2

lemma three_dvd_filterTriangles_length (vs : List Vertex) (m : ℚ) :
    ∀ l : List ℕ, 3 ∣ (filterTriangles vs m l).length
  | i0 :: i1 :: i2 :: rest => by
    by_cases h : keepTriangle vs m i0 i1 i2
    · simp only [filterTriangles, if_pos h, List.length_cons]
      obtain ⟨k, hk⟩ := three_dvd_filterTriangles_length vs m rest
      exact ⟨k + 1, by omega⟩
    · simp only [filterTriangles, if_neg h]
      exact three_dvd_filterTriangles_length vs m rest
  | [] => by simp [filterTriangles]
  | [_] => by simp [filterTriangles]
  | [_, _] => by simp [filterTriangles]

/-- Counterexample to C2: after an update of `boundaryGrid` the single
triangle of the mesh has no edge whose squared length exceeds the
threshold `(10 × grid_spacing)² = 100` — one edge's squared length equals
it exactly — yet the filtered index list comes out empty instead of
keeping the triangle, because the source keeps a triangle only when every
squared edge length is strictly below the threshold. -/
theorem claim2_counterexample :
    (boundaryGrid.update 0 0 0 ⟨0, 0, 0⟩ tinyPhysics).indices = [0, 1, 2]
    ∧ (boundaryGrid.update 0 0 0 ⟨0, 0, 0⟩ tinyPhysics).grid_spacing * 10
        * ((boundaryGrid.update 0 0 0 ⟨0, 0, 0⟩ tinyPhysics).grid_spacing * 10) = 100
    ∧ distanceSquared
        (((boundaryGrid.update 0 0 0 ⟨0, 0, 0⟩ tinyPhysics).vertices.getD 0 default).position)
        (((boundaryGrid.update 0 0 0 ⟨0, 0, 0⟩ tinyPhysics).vertices.getD 1 default).position)
        = 100
    ∧ distanceSquared
        (((boundaryGrid.update 0 0 0 ⟨0, 0, 0⟩ tinyPhysics).vertices.getD 1 default).position)
        (((boundaryGrid.update 0 0 0 ⟨0, 0, 0⟩ tinyPhysics).vertices.getD 2 default).position)
        ≤ 100
    ∧ distanceSquared
        (((boundaryGrid.update 0 0 0 ⟨0, 0, 0⟩ tinyPhysics).vertices.getD 2 default).position)
        (((boundaryGrid.update 0 0 0 ⟨0, 0, 0⟩ tinyPhysics).vertices.getD 0 default).position)
        ≤ 100
    ∧ (boundaryGrid.update 0 0 0 ⟨0, 0, 0⟩ tinyPhysics).filtered_indices = [] := by
  norm_num [boundaryGrid, tinyPhysics, OceanPhysics.default, OceanGrid.update,
    OceanGrid.filter_stretched_triangles, updatedResults, updateVertex, wrapDetected,
    wrapCoord, remEuclid, zeroNoise, filterTriangles, keepTriangle, distanceSquared,
    List.getD]

/-- C2 (amended): after every `OceanGrid::update` the filtered index list
contains exactly those triangles of the full index list all of whose three
squared edge lengths are strictly below `(10 × grid_spacing)²` — a
triangle is dropped as soon as some squared edge length reaches the
threshold, so an edge exactly equal to the threshold is dropped, not
kept — and consequently every retained triangle has all edges below
`10 × grid_spacing` and the filtered list's length is a multiple of 3
drawn from the full list. -/
theorem claim2_strict_triangle_filter (g : OceanGrid) (t a f : ℚ) (cam : Vec3)
    (p : OceanPhysics) :
    triples (g.update t a f cam p).filtered_indices
      = (triples (g.update t a f cam p).indices).filter
          (fun tr => decide (keepTriangle (g.update t a f cam p).vertices
            ((g.update t a f cam p).grid_spacing * 10
              * ((g.update t a f cam p).grid_spacing * 10)) tr.1 tr.2.1 tr.2.2))
    ∧ (∀ tr ∈ triples (g.update t a f cam p).filtered_indices,
        keepTriangle (g.update t a f cam p).vertices
          ((g.update t a f cam p).grid_spacing * 10
            * ((g.update t a f cam p).grid_spacing * 10)) tr.1 tr.2.1 tr.2.2)
    ∧ 3 ∣ (g.update t a f cam p).filtered_indices.length := by
  refine ⟨?_, ?_, ?_⟩
  · rw [update_filtered, update_indices, update_grid_spacing, update_vertices]
    exact triples_filterTriangles _ _ g.indices
  · intro tr htr
    rw [update_filtered] at htr
    rw [update_grid_spacing, update_vertices]
    exact keep_of_mem_triples_filterTriangles htr
  · rw [update_filtered]
    exact three_dvd_filterTriangles_length _ _ g.indices

/-- Witness for C2 (amended) at a concrete state: after the first update
of the 2×2 grid, the triangle `(0, 3, 1)` is in the filtered list and the
theorem yields that all its squared edge lengths are strictly below the
threshold. -/
theorem claim2_strict_triangle_filter_witness :
    ((0 : ℕ), (3 : ℕ), (1 : ℕ)) ∈ triples
      ((OceanGrid.new zeroNoise smallPhysics).update 0 0 0 ⟨0, 0, 0⟩
        smallPhysics).filtered_indices
    ∧ keepTriangle
        ((OceanGrid.new zeroNoise smallPhysics).update 0 0 0 ⟨0, 0, 0⟩
          smallPhysics).vertices
        (((OceanGrid.new zeroNoise smallPhysics).update 0 0 0 ⟨0, 0, 0⟩
          smallPhysics).grid_spacing * 10
          * (((OceanGrid.new zeroNoise smallPhysics).update 0 0 0 ⟨0, 0, 0⟩
            smallPhysics).grid_spacing * 10)) 0 3 1 := by
  have hmem : ((0 : ℕ), (3 : ℕ), (1 : ℕ)) ∈ triples
      ((OceanGrid.new zeroNoise smallPhysics).update 0 0 0 ⟨0, 0, 0⟩
        smallPhysics).filtered_indices := by
    norm_num [smallPhysics, OceanPhysics.default, OceanGrid.new, OceanGrid.update,
      OceanGrid.filter_stretched_triangles, updatedResults, updateVertex, wrapDetected,
      wrapCoord, remEuclid, zeroNoise, filterTriangles, keepTriangle, distanceSquared,
      newVertexRow, cellIndices, triples, List.getD, List.range_succ]
  exact ⟨hmem,
    (claim2_strict_triangle_filter (OceanGrid.new zeroNoise smallPhysics) 0 0 0
      ⟨0, 0, 0⟩ smallPhysics).2.1 (0, 3, 1) hmem⟩

lemma update_getD (g : OceanGrid) (t a f : ℚ) (cam : Vec3) (p : OceanPhysics)
    {i : ℕ} (hi : i < (g.update t a f cam p).vertices.length) :
    ((g.update t a f cam p).vertices.getD i default,
      (g.update t a f cam p).base_terrain_heights.getD i 0,
      (g.update t a f cam p).dirty_base_terrain.getD i true)
    = updateVertex g.noise p (cam.x - g.last_camera_pos.x) (cam.z - g.last_camera_pos.z)
        cam ((g.grid_size : ℚ) * g.grid_spacing / 2) ((g.grid_size : ℚ) * g.grid_spacing)
        (t * p.wave_speed) a f
        (g.vertices.getD i default) (g.base_terrain_heights.getD i 0)
        (g.dirty_base_terrain.getD i true) := by
  have hiZ : i < ((g.vertices.zip
      (g.base_terrain_heights.zip g.dirty_base_terrain))).length := by
    rw [update_vertices, updatedResults] at hi
    simpa using hi
  have hbounds := hiZ
  rw [List.length_zip, List.length_zip, lt_min_iff] at hbounds
  obtain ⟨hiv, hihd⟩ := hbounds
  rw [lt_min_iff] at hihd
  obtain ⟨hih, hid⟩ := hihd
  have h1 : i < (g.update t a f cam p).base_terrain_heights.length := by
    rw [(update_lengths g t a f cam p).1]; exact hi
  have h2 : i < (g.update t a f cam p).dirty_base_terrain.length := by
    rw [(update_lengths g t a f cam p).2]; exact hi
  rw [List.getD_eq_getElem _ _ hi, List.getD_eq_getElem _ _ h1, List.getD_eq_getElem _ _ h2,
    List.getD_eq_getElem _ _ hiv, List.getD_eq_getElem _ _ hih, List.getD_eq_getElem _ _ hid]
  simp only [update_vertices, update_heights, update_dirty, updatedResults,
    List.getElem_map, List.getElem_zip]

lemma updateVertex_consistent (noiseF : ℚ → ℚ → ℚ → ℚ) (p : OceanPhysics)
    (cam gLast : Vec3) {ext : ℚ} (dt da df : ℚ) (hext : 1/100 < ext)
    (v : Vertex) (c : ℚ) (d : Bool)
    (hold : d = false →
      c = noiseF ((gLast.x + v.position.x) * p.base_terrain_frequency)
        ((gLast.z + v.position.z) * p.base_terrain_frequency) 0
        * p.base_terrain_amplitude_m) :
    (updateVertex noiseF p (cam.x - gLast.x) (cam.z - gLast.z) cam (ext / 2) ext
      dt da df v c d).2.1
    = noiseF ((cam.x + (updateVertex noiseF p (cam.x - gLast.x) (cam.z - gLast.z) cam
          (ext / 2) ext dt da df v c d).1.position.x) * p.base_terrain_frequency)
        ((cam.z + (updateVertex noiseF p (cam.x - gLast.x) (cam.z - gLast.z) cam
          (ext / 2) ext dt da df v c d).1.position.z) * p.base_terrain_frequency) 0
        * p.base_terrain_amplitude_m := by
  by_cases hrec : wrapDetected (ext / 2) ext (v.position.x - (cam.x - gLast.x))
      (v.position.z - (cam.z - gLast.z)) ∨ d = true
  · simp only [updateVertex, if_pos hrec]
  · have hd : d = false := by simpa using (not_or.mp hrec).2
    have hnw := (not_or.mp hrec).1
    unfold wrapDetected at hnw
    obtain ⟨hnx, hnz⟩ := not_or.mp hnw
    have hwx := wrapCoord_eq_of_small_diff hext hnx
    have hwz := wrapCoord_eq_of_small_diff hext hnz
    simp only [updateVertex, if_neg hrec]
    rw [hwx, hwz]
    have harg1 : cam.x + (v.position.x - (cam.x - gLast.x)) = gLast.x + v.position.x := by
      ring
    have harg2 : cam.z + (v.position.z - (cam.z - gLast.z)) = gLast.z + v.position.z := by
      ring
    rw [harg1, harg2]
    exact hold hd

lemma new_cacheConsistent (noiseF : ℚ → ℚ → ℚ → ℚ) (p : OceanPhysics) :
    cacheConsistent p (OceanGrid.new noiseF p) := by
  intro i hi hflag
  exfalso
  have hrep : ∀ (n j : ℕ), (List.replicate n true).getD j true = true := by
    intro n j
    rcases Nat.lt_or_ge j n with h | h
    · rw [List.getD_eq_getElem _ _ (by simpa using h)]
      exact List.getElem_replicate true _
    · exact List.getD_eq_default _ _ (by simpa using h)
  have hshow : (OceanGrid.new noiseF p).dirty_base_terrain =
      List.replicate ((OceanGrid.new noiseF p).vertices.length) true := rfl
  rw [hshow, hrep] at hflag
  exact absurd hflag (by simp)

lemma update_cacheConsistent {p : OceanPhysics} {g : OceanGrid} (t a f : ℚ) (cam : Vec3)
    (hext : 1/100 < (g.grid_size : ℚ) * g.grid_spacing)
    (hcc : cacheConsistent p g) :
    cacheConsistent p (g.update t a f cam p) := by
  intro i hi _
  have hiZ : i < ((g.vertices.zip
      (g.base_terrain_heights.zip g.dirty_base_terrain))).length := by
    rw [update_vertices, updatedResults] at hi
    simpa using hi
  have hbounds := hiZ
  rw [List.length_zip, List.length_zip, lt_min_iff] at hbounds
  obtain ⟨hiv, hihd⟩ := hbounds
  have hgetD := update_getD g t a f cam p hi
  have hv := congrArg (fun q => q.1) hgetD
  have hh := congrArg (fun q => q.2.1) hgetD
  simp only at hv hh
  rw [hh, hv, update_last_camera_pos]
  exact updateVertex_consistent g.noise p cam g.last_camera_pos (t * p.wave_speed) a f
    hext (g.vertices.getD i default) (g.base_terrain_heights.getD i 0)
    (g.dirty_base_terrain.getD i true)
    (fun hflag0 => hcc i hiv hflag0)

/-- Counterexample to C4: with `flatPhysics` (zero base-terrain amplitude,
which no validation rejects) and the zero noise generator, the freshly
constructed grid has every dirty flag set while every cached base height
(`0`) already equals the base-terrain value at the vertex's current world
position — so "cached base height is valid if and only if the dirty flag
is clear" fails in the only-if direction at vertex 0 right after
construction. -/
theorem claim4_counterexample :
    (OceanGrid.new zeroNoise flatPhysics).dirty_base_terrain.getD 0 true = true
    ∧ (OceanGrid.new zeroNoise flatPhysics).base_terrain_heights.getD 0 0 =
        (OceanGrid.new zeroNoise flatPhysics).noise
          (((OceanGrid.new zeroNoise flatPhysics).last_camera_pos.x
              + ((OceanGrid.new zeroNoise flatPhysics).vertices.getD 0 default).position.x)
            * flatPhysics.base_terrain_frequency)
          (((OceanGrid.new zeroNoise flatPhysics).last_camera_pos.z
              + ((OceanGrid.new zeroNoise flatPhysics).vertices.getD 0 default).position.z)
            * flatPhysics.base_terrain_frequency) 0
          * flatPhysics.base_terrain_amplitude_m := by
  constructor
  · norm_num [OceanGrid.new, flatPhysics, OceanPhysics.default, newVertexRow,
      List.range_succ, List.getD]
  · norm_num [OceanGrid.new, flatPhysics, OceanPhysics.default, newVertexRow, zeroNoise,
      List.range_succ, List.getD]

/-- C4 (amended): whenever a vertex's dirty flag is clear its cached base
height equals the base-terrain noise at its current world position — this
holds at construction (vacuously: every flag is set at creation) and is
preserved by every `update` with the session physics; and a vertex
wrapped during an update is recomputed with its flag left clear in that
same update rather than set (the dirty-flag array is identically false
when `update` returns). The if-and-only-if of the original claim does not
hold: a set flag need not mean an invalid cache. -/
theorem claim4_cache_validity_invariant (noiseF : ℚ → ℚ → ℚ → ℚ) (p : OceanPhysics)
    (g : OceanGrid) (t a f : ℚ) (cam : Vec3)
    (hext : 1/100 < (g.grid_size : ℚ) * g.grid_spacing)
    (hcc : cacheConsistent p g) :
    cacheConsistent p (OceanGrid.new noiseF p)
    ∧ (OceanGrid.new noiseF p).dirty_base_terrain =
        List.replicate (OceanGrid.new noiseF p).vertices.length true
    ∧ cacheConsistent p (g.update t a f cam p)
    ∧ (g.update t a f cam p).dirty_base_terrain =
        List.replicate (g.update t a f cam p).dirty_base_terrain.length false :=
  ⟨new_cacheConsistent noiseF p, rfl, update_cacheConsistent t a f cam hext hcc,
    List.eq_replicate_iff.mpr ⟨rfl, update_dirty_all_false g t a f cam p⟩⟩

/-- Witness for C4 (amended) at a concrete state: the freshly constructed
one-cell grid satisfies the hypotheses (its extent exceeds the detection
epsilon and it is cache-consistent), so one update preserves the
invariant. -/
theorem claim4_cache_validity_invariant_witness :
    ((1 : ℚ)/100 < ((OceanGrid.new zeroNoise tinyPhysics).grid_size : ℚ)
        * (OceanGrid.new zeroNoise tinyPhysics).grid_spacing)
    ∧ cacheConsistent tinyPhysics
        ((OceanGrid.new zeroNoise tinyPhysics).update 0 0 0 ⟨3, 0, 4⟩ tinyPhysics) := by
  have hext : (1 : ℚ)/100 < ((OceanGrid.new zeroNoise tinyPhysics).grid_size : ℚ)
      * (OceanGrid.new zeroNoise tinyPhysics).grid_spacing := by
    norm_num [OceanGrid.new, tinyPhysics, OceanPhysics.default]
  exact ⟨hext,
    (claim4_cache_validity_invariant zeroNoise tinyPhysics
      (OceanGrid.new zeroNoise tinyPhysics) 0 0 0 ⟨3, 0, 4⟩ hext
      (new_cacheConsistent zeroNoise tinyPhysics)).2.2.1⟩

lemma getD_take_of_lt (l : List ℚ) {n i : ℕ} (h : i < n) :
    (l.take n).getD i 0 = l.getD i 0 := by
  rcases Nat.lt_or_ge i l.length with hl | hl
  · have ht : i < (l.take n).length := by
      rw [List.length_take]
      exact lt_min h hl
    rw [List.getD_eq_getElem _ _ ht, List.getD_eq_getElem _ _ hl]
    exact List.getElem_take _
  · rw [List.getD_eq_default _ _ (by simp [List.length_take]; omega),
      List.getD_eq_default _ _ (by simpa using hl)]

lemma computeBands_take (cosFn : ℚ → ℚ) (fftFn : List (ℚ × ℚ) → List (ℚ × ℚ))
    (normFn : ℚ × ℚ → ℚ) (config : FFTConfig) (buf : List ℚ) :
    computeBands cosFn fftFn normFn config (buf.take config.fft_size)
      = computeBands cosFn fftFn normFn config buf := by
  unfold computeBands
  have hinput : (List.range config.fft_size).map
      (fun i => ((buf.take config.fft_size).getD i 0 * hann_window cosFn i config.fft_size,
        (0 : ℚ)))
      = (List.range config.fft_size).map
      (fun i => (buf.getD i 0 * hann_window cosFn i config.fft_size, (0 : ℚ))) := by
    apply List.map_congr_left
    intro i hi
    rw [getD_take_of_lt buf (List.mem_range.mp hi)]
  rw [hinput]

/-- C5: each FFT worker cycle is atomic. With fewer than `fft_size`
samples buffered the cycle is a no-op leaving buffer and published
snapshot unchanged; otherwise it publishes a complete new band snapshot
computed from the first `fft_size` samples and removes exactly
`fft_size / 2` samples from the front of the buffer, leaving the rest. -/
theorem claim5_fft_cycle_atomic (cosFn : ℚ → ℚ) (fftFn : List (ℚ × ℚ) → List (ℚ × ℚ))
    (normFn : ℚ × ℚ → ℚ) (config : FFTConfig) (s : FftState) :
    (s.fft_buffer.length < config.fft_size →
      fftCycle cosFn fftFn normFn config s = s)
    ∧ (config.fft_size ≤ s.fft_buffer.length →
        (fftCycle cosFn fftFn normFn config s).fft_buffer
          = s.fft_buffer.drop (config.fft_size / 2)
        ∧ (fftCycle cosFn fftFn normFn config s).fft_buffer.length
          = s.fft_buffer.length - config.fft_size / 2
        ∧ (fftCycle cosFn fftFn normFn config s).audio_bands
          = computeBands cosFn fftFn normFn config
              (s.fft_buffer.take config.fft_size)) := by
  constructor
  · intro h
    unfold fftCycle
    rw [if_neg (not_le.mpr h)]
  · intro h
    unfold fftCycle
    rw [if_pos h]
    exact ⟨rfl, by simp, (computeBands_take cosFn fftFn normFn config s.fft_buffer).symm⟩

/-- Witness for C5 at a concrete state: a three-sample buffer is shorter
than the default 1024-sample window, so the cycle leaves the state
untouched. -/
theorem claim5_fft_cycle_atomic_witness :
    shortFftState.fft_buffer.length < FFTConfig.default.fft_size
    ∧ fftCycle zeroCos idFft zeroNorm FFTConfig.default shortFftState = shortFftState := by
  have h : shortFftState.fft_buffer.length < FFTConfig.default.fft_size := by
    norm_num [shortFftState, FFTConfig.default]
  exact ⟨h, (claim5_fft_cycle_atomic zeroCos idFft zeroNorm FFTConfig.default
    shortFftState).1 h⟩

/-- C6: `OceanSystem::update` returns exactly the triple
`(base_detail_amplitude + low × bass_scale, base_detail_frequency + mid ×
mid_scale, base_line_width + high × high_scale)` for every snapshot and
configuration; in particular the default mapping scales with bands
`{1, 0.5, 0.2}` and the default base detail parameters yield
`(5, 0.175, 0.026)`. -/
theorem claim6_band_to_terrain_mapper (s : OceanSystem) (t : ℚ) (b : AudioBands)
    (cam : Vec3) :
    ((s.update t b cam).2
      = (s.physics.detail_amplitude_m + b.low * s.mapping.bass_to_amplitude_scale,
          s.physics.detail_frequency + b.mid * s.mapping.mid_to_frequency_scale,
          s.physics.base_line_width + b.high * s.mapping.high_to_glow_scale))
    ∧ ∀ noiseF : ℚ → ℚ → ℚ → ℚ,
        ((OceanSystem.new noiseF OceanPhysics.default AudioReactiveMapping.default).update
          0 ⟨1, 1/2, 1/5⟩ ⟨0, 0, 0⟩).2 = (5, 7/40, 13/500) := by
  constructor
  · rfl
  · intro noiseF
    norm_num [OceanSystem.update, OceanSystem.new, OceanPhysics.default,
      AudioReactiveMapping.default]

/-- C7: `hz_to_bin` is non-decreasing over non-negative frequencies for
every configuration, maps `0` to bin `0`, and for the default
configuration maps `43.07 Hz` to bin `1` and `100 Hz` to bin `2`. -/
theorem claim7_hz_to_bin_monotone (c : FFTConfig) (hz1 hz2 : ℚ)
    (h0 : 0 ≤ hz1) (h12 : hz1 ≤ hz2) :
    c.hz_to_bin hz1 ≤ c.hz_to_bin hz2
    ∧ c.hz_to_bin 0 = 0
    ∧ FFTConfig.default.hz_to_bin (4307/100) = 1
    ∧ FFTConfig.default.hz_to_bin 100 = 2 := by
  refine ⟨?_, ?_, ?_, ?_⟩
  · unfold FFTConfig.hz_to_bin
    apply Int.toNat_le_toNat
    apply Int.floor_le_floor
    rcases eq_or_lt_of_le (Nat.cast_nonneg (α := ℚ) c.sample_rate_hz) with hr | hr
    · rw [← hr, div_zero, div_zero]
    · exact (div_le_div_iff_of_pos_right hr).mpr
        (mul_le_mul_of_nonneg_right h12 (Nat.cast_nonneg _))
  · simp [FFTConfig.hz_to_bin]
  · norm_num [FFTConfig.hz_to_bin, FFTConfig.default, Int.toNat_one, Int.toNat_ofNat]
  · have hfloor : ⌊(100 : ℚ) * (FFTConfig.default.fft_size : ℚ)
        / (FFTConfig.default.sample_rate_hz : ℚ)⌋ = 2 := by
      norm_num [FFTConfig.default]
    unfold FFTConfig.hz_to_bin
    rw [hfloor]
    rfl

/-- Witness for C7 at concrete frequencies `0 ≤ 50`. -/
theorem claim7_hz_to_bin_monotone_witness :
    (0 : ℚ) ≤ 0 ∧ (0 : ℚ) ≤ 50
    ∧ FFTConfig.default.hz_to_bin 0 ≤ FFTConfig.default.hz_to_bin 50 := by
  exact ⟨le_refl 0, by norm_num,
    (claim7_hz_to_bin_monotone FFTConfig.default 0 50 (le_refl 0) (by norm_num)).1⟩

lemma abs_clampQ_le (x : ℚ) : |clampQ x (-(1/2)) (1/2)| ≤ 1/2 := by
  rw [abs_le]
  constructor
  · unfold clampQ
    apply le_min
    · exact le_max_right x (-(1/2))
    · norm_num
  · exact min_le_right _ _

lemma audioCallbackLoop_bounded (e : ℕ → (ℕ → ℚ) × (ℕ → ℚ)) :
    ∀ (r b : ℕ), ∀ fr ∈ audioCallbackLoop e b r, |fr.1| ≤ 1/2 ∧ |fr.2| ≤ 1/2 := by
  intro r
  induction r using Nat.strong_induction_on with
  | _ r ih =>
    match r with
    | 0 =>
      intro b fr hfr
      simp [audioCallbackLoop] at hfr
    | Nat.succ n =>
      intro b fr hfr
      simp only [audioCallbackLoop, List.mem_append] at hfr
      rcases hfr with h | h
      · rw [List.mem_map] at h
        obtain ⟨i, _, hi⟩ := h
        rw [← hi]
        exact ⟨abs_clampQ_le _, abs_clampQ_le _⟩
      · have hdec : n + 1 - min (n + 1) BLOCK_SIZE < n + 1 := by
          have hpos : 0 < min (n + 1) BLOCK_SIZE := by
            simp [BLOCK_SIZE]
          omega
        exact ih _ hdec _ fr h

/-- C8: every value the audio callback writes — into the interleaved
output buffer, onto the shared raw-sample buffer (left channel), and to
the recording sink — has absolute value at most `0.5`, for every
synthesis-engine output (including out-of-range samples) and every
requested frame count, because each sample pair is clamped to
`[−0.5, 0.5]` before use. -/
theorem claim8_callback_clamps_samples (engine : ℕ → (ℕ → ℚ) × (ℕ → ℚ)) (n : ℕ)
    (v : ℚ)
    (h : v ∈ callbackOutputData engine n ∨ v ∈ callbackFftAppended engine n
      ∨ v ∈ callbackWavWritten engine n) :
    |v| ≤ 1/2 := by
  have hframe : ∀ fr ∈ audioCallback engine n, |fr.1| ≤ 1/2 ∧ |fr.2| ≤ 1/2 :=
    fun fr hfr => audioCallbackLoop_bounded engine n 0 fr hfr
  rcases h with h | h | h
  · rw [callbackOutputData, List.mem_flatMap] at h
    obtain ⟨fr, hfr, hv⟩ := h
    rcases List.mem_pair.mp hv with rfl | rfl
    · exact (hframe fr hfr).1
    · exact (hframe fr hfr).2
  · rw [callbackFftAppended, List.mem_map] at h
    obtain ⟨fr, hfr, hv⟩ := h
    rw [← hv]
    exact (hframe fr hfr).1
  · rw [callbackWavWritten, List.mem_flatMap] at h
    obtain ⟨fr, hfr, hv⟩ := h
    rcases List.mem_pair.mp hv with rfl | rfl
    · exact (hframe fr hfr).1
    · exact (hframe fr hfr).2

/-- Witness for C8 at a concrete callback: the constant engine produces
the out-of-range sample `7`, which is written as the clamped value `1/2`,
and that value is bounded by `1/2`. -/
theorem claim8_callback_clamps_samples_witness :
    ((1 : ℚ)/2 ∈ callbackOutputData constEngine 1
      ∨ (1 : ℚ)/2 ∈ callbackFftAppended constEngine 1
      ∨ (1 : ℚ)/2 ∈ callbackWavWritten constEngine 1)
    ∧ |(1 : ℚ)/2| ≤ 1/2 := by
  have h1 : (1 : ℕ) = 0 + 1 := rfl
  have hmem : (1 : ℚ)/2 ∈ callbackOutputData constEngine 1 := by
    rw [callbackOutputData, audioCallback, h1]
    simp only [audioCallbackLoop]
    norm_num [constEngine, clampQ, BLOCK_SIZE, List.range_succ]
  exact ⟨Or.inl hmem, claim8_callback_clamps_samples constEngine 1 (1/2) (Or.inl hmem)⟩

lemma remEuclid_self {b : ℚ} (hb : b ≠ 0) : remEuclid b b = 0 := by
  unfold remEuclid
  rw [div_self hb]
  simp

lemma wrapCoord_at_half {ext : ℚ} (hext : ext ≠ 0) :
    wrapCoord (ext / 2) ext (ext / 2) = -(ext / 2) := by
  unfold wrapCoord
  rw [show ext / 2 + ext / 2 = ext by ring, remEuclid_self hext]
  ring

lemma flatMapRows_length {α : Type} (r : ℕ → List α) (m : ℕ)
    (hrow : ∀ k, (r k).length = m) :
    ∀ n, ((List.range n).flatMap r).length = n * m := by
  intro n
  induction n with
  | zero => simp
  | succ k ih =>
    rw [List.range_succ, List.flatMap_append, List.length_append, ih]
    simp [hrow k, Nat.succ_mul]

lemma flatMapRows_getD {α : Type} [Inhabited α] (r : ℕ → List α) (m : ℕ)
    (hrow : ∀ k, (r k).length = m) :
    ∀ n z x, z < n → x < m →
      ((List.range n).flatMap r).getD (z * m + x) default = (r z).getD x default := by
  intro n
  induction n with
  | zero =>
    intro z x hz _
    exact absurd hz (Nat.not_lt_zero z)
  | succ k ih =>
    intro z x hz hx
    rw [List.range_succ, List.flatMap_append]
    rcases Nat.lt_or_ge z k with hzk | hzk
    · have hlt : z * m + x < ((List.range k).flatMap r).length := by
        rw [flatMapRows_length r m hrow k]
        calc z * m + x < z * m + m := by omega
          _ = (z + 1) * m := by ring
          _ ≤ k * m := Nat.mul_le_mul_right m hzk
      rw [List.getD_append _ _ _ _ hlt]
      exact ih z x hzk hx
    · have hzeq : z = k := by omega
      rw [hzeq]
      have hge : ((List.range k).flatMap r).length ≤ k * m + x := by
        rw [flatMapRows_length r m hrow k]
        omega
      rw [List.getD_append_right _ _ _ _ hge, flatMapRows_length r m hrow k]
      simp

lemma new_vertices_length (noiseF : ℚ → ℚ → ℚ → ℚ) (p : OceanPhysics) :
    (OceanGrid.new noiseF p).vertices.length = (p.grid_size + 1) * (p.grid_size + 1) := by
  have hshow : (OceanGrid.new noiseF p).vertices
      = (List.range (p.grid_size + 1)).flatMap
          (newVertexRow p.grid_size p.grid_spacing_m
            ((p.grid_size : ℚ) * p.grid_spacing_m / 2)) := rfl
  rw [hshow, flatMapRows_length
    (newVertexRow p.grid_size p.grid_spacing_m ((p.grid_size : ℚ) * p.grid_spacing_m / 2))
    (p.grid_size + 1) (fun k => by simp only [newVertexRow, List.length_map, List.length_range])]

lemma new_vertices_getD (noiseF : ℚ → ℚ → ℚ → ℚ) (p : OceanPhysics) {x z : ℕ}
    (hx : x ≤ p.grid_size) (hz : z ≤ p.grid_size) :
    (OceanGrid.new noiseF p).vertices.getD (z * (p.grid_size + 1) + x) default
      = ⟨⟨(x : ℚ) * p.grid_spacing_m - (p.grid_size : ℚ) * p.grid_spacing_m / 2, 0,
          (z : ℚ) * p.grid_spacing_m - (p.grid_size : ℚ) * p.grid_spacing_m / 2⟩,
          ((x : ℚ) / (p.grid_size : ℚ), (z : ℚ) / (p.grid_size : ℚ))⟩ := by
  have hshow : (OceanGrid.new noiseF p).vertices
      = (List.range (p.grid_size + 1)).flatMap
          (newVertexRow p.grid_size p.grid_spacing_m
            ((p.grid_size : ℚ) * p.grid_spacing_m / 2)) := rfl
  rw [hshow, flatMapRows_getD
    (newVertexRow p.grid_size p.grid_spacing_m ((p.grid_size : ℚ) * p.grid_spacing_m / 2))
    (p.grid_size + 1) (fun k => by simp only [newVertexRow, List.length_map, List.length_range])
    (p.grid_size + 1) z x (by omega) (by omega)]
  unfold newVertexRow
  rw [List.getD_eq_getElem _ _ (by simp only [List.length_map, List.length_range]; omega)]
  rw [List.getElem_map, List.getElem_range]

lemma new_grid_size (noiseF : ℚ → ℚ → ℚ → ℚ) (p : OceanPhysics) :
    (OceanGrid.new noiseF p).grid_size = p.grid_size := rfl

lemma new_grid_spacing (noiseF : ℚ → ℚ → ℚ → ℚ) (p : OceanPhysics) :
    (OceanGrid.new noiseF p).grid_spacing = p.grid_spacing_m := rfl

lemma new_last_camera_pos (noiseF : ℚ → ℚ → ℚ → ℚ) (p : OceanPhysics) :
    (OceanGrid.new noiseF p).last_camera_pos = ⟨0, 0, 0⟩ := rfl

lemma idx_lt {x z G : ℕ} (hx : x ≤ G) (hz : z ≤ G) :
    z * (G + 1) + x < (G + 1) * (G + 1) :=
  calc z * (G + 1) + x < z * (G + 1) + (G + 1) := by omega
    _ = (z + 1) * (G + 1) := by ring
    _ ≤ (G + 1) * (G + 1) := Nat.mul_le_mul_right _ (by omega)

lemma first_update_vertices_length (noiseF : ℚ → ℚ → ℚ → ℚ) (p : OceanPhysics)
    (t a f : ℚ) (cam : Vec3) :
    ((OceanGrid.new noiseF p).update t a f cam p).vertices.length
      = (p.grid_size + 1) * (p.grid_size + 1) := by
  have h1 : (OceanGrid.new noiseF p).base_terrain_heights.length
      = (OceanGrid.new noiseF p).vertices.length := by
    rw [show (OceanGrid.new noiseF p).base_terrain_heights
      = List.replicate ((OceanGrid.new noiseF p).vertices.length) 0 from rfl]
    exact List.length_replicate _ _
  have h2 : (OceanGrid.new noiseF p).dirty_base_terrain.length
      = (OceanGrid.new noiseF p).vertices.length := by
    rw [show (OceanGrid.new noiseF p).dirty_base_terrain
      = List.replicate ((OceanGrid.new noiseF p).vertices.length) true from rfl]
    exact List.length_replicate _ _
  rw [update_vertices, updatedResults]
  simp only [List.length_map, List.length_zip, h1, h2, min_self]
  exact new_vertices_length noiseF p

lemma wrapCoord_grid {G : ℕ} {s : ℚ} (hs : 0 < s) (hG1 : 0 < G) {x : ℕ} (hx : x ≤ G) :
    wrapCoord ((G : ℚ) * s / 2) ((G : ℚ) * s) ((x : ℚ) * s - (G : ℚ) * s / 2)
      = if x = G then -((G : ℚ) * s / 2) else (x : ℚ) * s - (G : ℚ) * s / 2 := by
  have hGq : (0 : ℚ) < (G : ℚ) := by exact_mod_cast hG1
  have hext : (0 : ℚ) < (G : ℚ) * s := mul_pos hGq hs
  by_cases hxe : x = G
  · subst hxe
    rw [if_pos rfl, show (x : ℚ) * s - (x : ℚ) * s / 2 = (x : ℚ) * s / 2 from by ring]
    exact wrapCoord_at_half hext.ne'
  · rw [if_neg hxe]
    have hxlt : (x : ℚ) < (G : ℚ) := by
      exact_mod_cast lt_of_le_of_ne hx hxe
    apply wrapCoord_eq_self hext
    · have hnn : (0 : ℚ) ≤ (x : ℚ) * s := mul_nonneg (Nat.cast_nonneg x) hs.le
      linarith
    · have hlt : (x : ℚ) * s < (G : ℚ) * s := mul_lt_mul_of_pos_right hxlt hs
      linarith

lemma wrapDetected_grid {G : ℕ} {s : ℚ} (hs : 0 < s) (hG1 : 0 < G)
    (hε : 1/100 < (G : ℚ) * s) {x z : ℕ} (hx : x ≤ G) (hz : z ≤ G) :
    wrapDetected ((G : ℚ) * s / 2) ((G : ℚ) * s) ((x : ℚ) * s - (G : ℚ) * s / 2)
      ((z : ℚ) * s - (G : ℚ) * s / 2)
      ↔ (x = G ∨ z = G) := by
  have hdiff : ∀ w : ℕ, w ≤ G →
      wrapCoord ((G : ℚ) * s / 2) ((G : ℚ) * s) ((w : ℚ) * s - (G : ℚ) * s / 2)
        - ((w : ℚ) * s - (G : ℚ) * s / 2)
      = if w = G then -((G : ℚ) * s) else 0 := by
    intro w hw
    rw [wrapCoord_grid hs hG1 hw]
    by_cases hwe : w = G
    · subst hwe
      rw [if_pos rfl, if_pos rfl]
      ring
    · rw [if_neg hwe, if_neg hwe]
      ring
  unfold wrapDetected
  rw [hdiff x hx, hdiff z hz]
  have habs : |(-((G : ℚ) * s))| > 1/100 := by
    rw [abs_neg, abs_of_pos (by linarith)]
    exact hε
  constructor
  · intro h
    rcases h with h | h
    · left
      by_contra hxe
      rw [if_neg hxe] at h
      norm_num at h
    · right
      by_contra hze
      rw [if_neg hze] at h
      norm_num at h
  · intro h
    rcases h with h | h
    · left
      rw [if_pos h]
      exact habs
    · right
      rw [if_pos h]
      exact habs

lemma first_update_position (noiseF : ℚ → ℚ → ℚ → ℚ) (p : OceanPhysics) (t a f : ℚ)
    (hs : 0 < p.grid_spacing_m) (hG1 : 0 < p.grid_size)
    {x z : ℕ} (hx : x ≤ p.grid_size) (hz : z ≤ p.grid_size) :
    ((((OceanGrid.new noiseF p).update t a f ⟨0, 0, 0⟩ p).vertices.getD
        (z * (p.grid_size + 1) + x) default).position.x
      = if x = p.grid_size then -((p.grid_size : ℚ) * p.grid_spacing_m / 2)
        else (x : ℚ) * p.grid_spacing_m - (p.grid_size : ℚ) * p.grid_spacing_m / 2)
    ∧ ((((OceanGrid.new noiseF p).update t a f ⟨0, 0, 0⟩ p).vertices.getD
        (z * (p.grid_size + 1) + x) default).position.z
      = if z = p.grid_size then -((p.grid_size : ℚ) * p.grid_spacing_m / 2)
        else (z : ℚ) * p.grid_spacing_m - (p.grid_size : ℚ) * p.grid_spacing_m / 2) := by
  have hiu : z * (p.grid_size + 1) + x
      < ((OceanGrid.new noiseF p).update t a f ⟨0, 0, 0⟩ p).vertices.length := by
    rw [first_update_vertices_length]
    exact idx_lt hx hz
  have hgetD := update_getD (OceanGrid.new noiseF p) t a f ⟨0, 0, 0⟩ p hiu
  have hv := congrArg (fun q => q.1) hgetD
  simp only at hv
  rw [hv, updateVertex_position_x, updateVertex_position_z, new_grid_size,
    new_grid_spacing, new_last_camera_pos, new_vertices_getD noiseF p hx hz]
  simp only [sub_zero, sub_self]
  constructor
  · exact wrapCoord_grid hs hG1 hx
  · exact wrapCoord_grid hs hG1 hz

lemma sq_dx_le_distanceSquared (a b : Vec3) : (a.x - b.x) ^ 2 ≤ distanceSquared a b := by
  unfold distanceSquared
  have h1 := sq_nonneg (a.y - b.y)
  have h2 := sq_nonneg (a.z - b.z)
  linarith

lemma sq_dz_le_distanceSquared (a b : Vec3) : (a.z - b.z) ^ 2 ≤ distanceSquared a b := by
  unfold distanceSquared
  have h1 := sq_nonneg (a.x - b.x)
  have h2 := sq_nonneg (a.y - b.y)
  linarith

lemma not_keepTriangle_left {vs : List Vertex} {m : ℚ} {i0 i1 i2 : ℕ}
    (h : m ≤ distanceSquared (vs.getD i0 default).position (vs.getD i1 default).position) :
    ¬ keepTriangle vs m i0 i1 i2 :=
  fun hk => absurd hk.1 (not_lt.mpr h)

lemma not_keepTriangle_right {vs : List Vertex} {m : ℚ} {i0 i1 i2 : ℕ}
    (h : m ≤ distanceSquared (vs.getD i2 default).position (vs.getD i0 default).position) :
    ¬ keepTriangle vs m i0 i1 i2 :=
  fun hk => absurd hk.2.2 (not_lt.mpr h)

lemma stretch_bound {s c : ℚ} (hs : 0 < s) (hc : 11 ≤ c) {A B : Vec3}
    (h : A.x - B.x = c * s ∨ A.x - B.x = -(c * s)
      ∨ A.z - B.z = c * s ∨ A.z - B.z = -(c * s)) :
    s * 10 * (s * 10) ≤ distanceSquared A B := by
  have hc2 : (121 : ℚ) ≤ c ^ 2 := by nlinarith
  have hs2 : (0 : ℚ) < s ^ 2 := by positivity
  have hcs : (c * s) ^ 2 ≤ distanceSquared A B := by
    rcases h with h | h | h | h
    · rw [← h]; exact sq_dx_le_distanceSquared A B
    · rw [show (c * s) ^ 2 = (-(c * s)) ^ 2 from by ring, ← h]
      exact sq_dx_le_distanceSquared A B
    · rw [← h]; exact sq_dz_le_distanceSquared A B
    · rw [show (c * s) ^ 2 = (-(c * s)) ^ 2 from by ring, ← h]
      exact sq_dz_le_distanceSquared A B
  have h121 : 121 * s ^ 2 ≤ (c * s) ^ 2 := by
    rw [show (c * s) ^ 2 = c ^ 2 * s ^ 2 from by ring]
    exact mul_le_mul_of_nonneg_right hc2 hs2.le
  nlinarith

set_option maxHeartbeats 1600000 in
/-- Counterexample to C10: on the 2×2-cell unit-spacing grid the far-edge
vertices do wrap on the first zero-delta update (vertex 8, grid corner
`(2, 2)`, is relocated to `(−half, −half) = (−1, −1)`), but the stretched
edge only spans `(grid_size − 1) × spacing = 1`, far below the
`10 × spacing` threshold, so the edge-row triangle `(5, 7, 8)` of cell
`(1, 1)` stays in the filtered index list instead of being excluded. -/
theorem claim10_counterexample :
    ((((OceanGrid.new zeroNoise smallPhysics).update 0 0 0 ⟨0, 0, 0⟩
        smallPhysics).vertices.getD 8 default).position.x = -1)
    ∧ ((((OceanGrid.new zeroNoise smallPhysics).update 0 0 0 ⟨0, 0, 0⟩
        smallPhysics).vertices.getD 8 default).position.z = -1)
    ∧ ((5, 7, 8) ∈ triples ((OceanGrid.new zeroNoise smallPhysics).update 0 0 0 ⟨0, 0, 0⟩
        smallPhysics).filtered_indices) := by
  refine ⟨?_, ?_, ?_⟩ <;>
    norm_num [smallPhysics, OceanPhysics.default, OceanGrid.new, OceanGrid.update,
      OceanGrid.filter_stretched_triangles, updatedResults, updateVertex, wrapDetected,
      wrapCoord, remEuclid, zeroNoise, filterTriangles, keepTriangle, distanceSquared,
      newVertexRow, cellIndices, triples, List.getD, List.range_succ]

/-- C10 (amended): `OceanGrid::new` places the `(grid_size+1)²` vertices
at local coordinates spanning the closed interval `[−half, +half]` on
each axis with the far-edge vertices at exactly `+half`; on the very
first update with zero camera delta every far-edge vertex is detected as
wrapped and relocated to `−half` while interior vertices keep their
positions undetected; and — provided the stretched span
`(grid_size − 1) × spacing` exceeds the `10 × spacing` threshold
(`grid_size ≥ 12`) and the grid extent exceeds the detection epsilon —
the edge-row triangles fail the edge-length filter and are excluded from
that tick's filtered index list. -/
theorem claim10_first_tick_edge_wrap (noiseF : ℚ → ℚ → ℚ → ℚ) (p : OceanPhysics)
    (t a f : ℚ) (hs : 0 < p.grid_spacing_m) (hG : 12 ≤ p.grid_size)
    (hε : 1/100 < (p.grid_size : ℚ) * p.grid_spacing_m) :
    (OceanGrid.new noiseF p).vertices.length = (p.grid_size + 1) * (p.grid_size + 1)
    ∧ (∀ x z, x ≤ p.grid_size → z ≤ p.grid_size →
        ((OceanGrid.new noiseF p).vertices.getD (z * (p.grid_size + 1) + x)
            default).position.x
          = (x : ℚ) * p.grid_spacing_m - (p.grid_size : ℚ) * p.grid_spacing_m / 2
        ∧ ((OceanGrid.new noiseF p).vertices.getD (z * (p.grid_size + 1) + x)
            default).position.z
          = (z : ℚ) * p.grid_spacing_m - (p.grid_size : ℚ) * p.grid_spacing_m / 2
        ∧ -((p.grid_size : ℚ) * p.grid_spacing_m / 2)
          ≤ (x : ℚ) * p.grid_spacing_m - (p.grid_size : ℚ) * p.grid_spacing_m / 2
        ∧ (x : ℚ) * p.grid_spacing_m - (p.grid_size : ℚ) * p.grid_spacing_m / 2
          ≤ (p.grid_size : ℚ) * p.grid_spacing_m / 2)
    ∧ (∀ z, z ≤ p.grid_size →
        ((OceanGrid.new noiseF p).vertices.getD
            (z * (p.grid_size + 1) + p.grid_size) default).position.x
          = (p.grid_size : ℚ) * p.grid_spacing_m / 2
        ∧ ((((OceanGrid.new noiseF p).update t a f ⟨0, 0, 0⟩ p).vertices.getD
            (z * (p.grid_size + 1) + p.grid_size) default).position.x
          = -((p.grid_size : ℚ) * p.grid_spacing_m / 2))
        ∧ wrapDetected ((p.grid_size : ℚ) * p.grid_spacing_m / 2)
            ((p.grid_size : ℚ) * p.grid_spacing_m)
            (((OceanGrid.new noiseF p).vertices.getD
              (z * (p.grid_size + 1) + p.grid_size) default).position.x)
            (((OceanGrid.new noiseF p).vertices.getD
              (z * (p.grid_size + 1) + p.grid_size) default).position.z))
    ∧ (∀ x, x ≤ p.grid_size →
        ((OceanGrid.new noiseF p).vertices.getD
            (p.grid_size * (p.grid_size + 1) + x) default).position.z
          = (p.grid_size : ℚ) * p.grid_spacing_m / 2
        ∧ ((((OceanGrid.new noiseF p).update t a f ⟨0, 0, 0⟩ p).vertices.getD
            (p.grid_size * (p.grid_size + 1) + x) default).position.z
          = -((p.grid_size : ℚ) * p.grid_spacing_m / 2))
        ∧ wrapDetected ((p.grid_size : ℚ) * p.grid_spacing_m / 2)
            ((p.grid_size : ℚ) * p.grid_spacing_m)
            (((OceanGrid.new noiseF p).vertices.getD
              (p.grid_size * (p.grid_size + 1) + x) default).position.x)
            (((OceanGrid.new noiseF p).vertices.getD
              (p.grid_size * (p.grid_size + 1) + x) default).position.z))
    ∧ (∀ x z, x < p.grid_size → z < p.grid_size →
        ((((OceanGrid.new noiseF p).update t a f ⟨0, 0, 0⟩ p).vertices.getD
            (z * (p.grid_size + 1) + x) default).position.x
          = (x : ℚ) * p.grid_spacing_m - (p.grid_size : ℚ) * p.grid_spacing_m / 2)
        ∧ ((((OceanGrid.new noiseF p).update t a f ⟨0, 0, 0⟩ p).vertices.getD
            (z * (p.grid_size + 1) + x) default).position.z
          = (z : ℚ) * p.grid_spacing_m - (p.grid_size : ℚ) * p.grid_spacing_m / 2)
        ∧ ¬ wrapDetected ((p.grid_size : ℚ) * p.grid_spacing_m / 2)
            ((p.grid_size : ℚ) * p.grid_spacing_m)
            (((OceanGrid.new noiseF p).vertices.getD
              (z * (p.grid_size + 1) + x) default).position.x)
            (((OceanGrid.new noiseF p).vertices.getD
              (z * (p.grid_size + 1) + x) default).position.z))
    ∧ (∀ cx cz, cx < p.grid_size → cz < p.grid_size →
        (cx = p.grid_size - 1 ∨ cz = p.grid_size - 1) →
        ¬ keepTriangle (((OceanGrid.new noiseF p).update t a f ⟨0, 0, 0⟩ p).vertices)
            (p.grid_spacing_m * 10 * (p.grid_spacing_m * 10))
            (cz * (p.grid_size + 1) + cx) ((cz + 1) * (p.grid_size + 1) + cx)
            (cz * (p.grid_size + 1) + (cx + 1))
        ∧ ¬ keepTriangle (((OceanGrid.new noiseF p).update t a f ⟨0, 0, 0⟩ p).vertices)
            (p.grid_spacing_m * 10 * (p.grid_spacing_m * 10))
            (cz * (p.grid_size + 1) + (cx + 1)) ((cz + 1) * (p.grid_size + 1) + cx)
            ((cz + 1) * (p.grid_size + 1) + (cx + 1))
        ∧ (cz * (p.grid_size + 1) + cx, (cz + 1) * (p.grid_size + 1) + cx,
            cz * (p.grid_size + 1) + (cx + 1)) ∉
              triples ((OceanGrid.new noiseF p).update t a f ⟨0, 0, 0⟩ p).filtered_indices
        ∧ (cz * (p.grid_size + 1) + (cx + 1), (cz + 1) * (p.grid_size + 1) + cx,
            (cz + 1) * (p.grid_size + 1) + (cx + 1)) ∉
              triples ((OceanGrid.new noiseF p).update t a f ⟨0, 0, 0⟩ p).filtered_indices) := by
  have hG1 : 0 < p.grid_size := by omega
  have hGq : (0 : ℚ) < (p.grid_size : ℚ) := by exact_mod_cast hG1
  refine ⟨new_vertices_length noiseF p, ?_, ?_, ?_, ?_, ?_⟩
  · intro x z hx hz
    rw [new_vertices_getD noiseF p hx hz]
    refine ⟨rfl, rfl, ?_, ?_⟩
    · have hnn : (0 : ℚ) ≤ (x : ℚ) * p.grid_spacing_m :=
        mul_nonneg (Nat.cast_nonneg x) hs.le
      linarith
    · have hxle : (x : ℚ) ≤ (p.grid_size : ℚ) := by exact_mod_cast hx
      have hle : (x : ℚ) * p.grid_spacing_m ≤ (p.grid_size : ℚ) * p.grid_spacing_m :=
        mul_le_mul_of_nonneg_right hxle hs.le
      linarith
  · intro z hz
    refine ⟨?_, ?_, ?_⟩
    · rw [new_vertices_getD noiseF p (le_refl p.grid_size) hz]
      show (p.grid_size : ℚ) * p.grid_spacing_m
        - (p.grid_size : ℚ) * p.grid_spacing_m / 2 = _
      ring
    · rw [(first_update_position noiseF p t a f hs hG1 (le_refl p.grid_size) hz).1,
        if_pos rfl]
    · rw [new_vertices_getD noiseF p (le_refl p.grid_size) hz]
      exact (wrapDetected_grid hs hG1 hε (le_refl p.grid_size) hz).mpr (Or.inl rfl)
  · intro x hx
    refine ⟨?_, ?_, ?_⟩
    · rw [new_vertices_getD noiseF p hx (le_refl p.grid_size)]
      show (p.grid_size : ℚ) * p.grid_spacing_m
        - (p.grid_size : ℚ) * p.grid_spacing_m / 2 = _
      ring
    · rw [(first_update_position noiseF p t a f hs hG1 hx (le_refl p.grid_size)).2,
        if_pos rfl]
    · rw [new_vertices_getD noiseF p hx (le_refl p.grid_size)]
      exact (wrapDetected_grid hs hG1 hε hx (le_refl p.grid_size)).mpr (Or.inr rfl)
  · intro x z hx hz
    refine ⟨?_, ?_, ?_⟩
    · rw [(first_update_position noiseF p t a f hs hG1 hx.le hz.le).1,
        if_neg (Nat.ne_of_lt hx)]
    · rw [(first_update_position noiseF p t a f hs hG1 hx.le hz.le).2,
        if_neg (Nat.ne_of_lt hz)]
    · rw [new_vertices_getD noiseF p hx.le hz.le]
      intro hdet
      rcases (wrapDetected_grid hs hG1 hε hx.le hz.le).mp hdet with h | h <;> omega
  · intro cx cz hcx hcz hedge
    have hb1 : cx + 1 ≤ p.grid_size := by omega
    have hb2 : cz + 1 ≤ p.grid_size := by omega
    have hPtl := first_update_position noiseF p t a f hs hG1 hcx.le hcz.le
    have hPbl := first_update_position noiseF p t a f hs hG1 hcx.le hb2
    have hPtr := first_update_position noiseF p t a f hs hG1 hb1 hcz.le
    have hPbr := first_update_position noiseF p t a f hs hG1 hb1 hb2
    have hnk : ¬ keepTriangle (((OceanGrid.new noiseF p).update t a f ⟨0, 0, 0⟩ p).vertices)
          (p.grid_spacing_m * 10 * (p.grid_spacing_m * 10))
          (cz * (p.grid_size + 1) + cx) ((cz + 1) * (p.grid_size + 1) + cx)
          (cz * (p.grid_size + 1) + (cx + 1))
        ∧ ¬ keepTriangle (((OceanGrid.new noiseF p).update t a f ⟨0, 0, 0⟩ p).vertices)
          (p.grid_spacing_m * 10 * (p.grid_spacing_m * 10))
          (cz * (p.grid_size + 1) + (cx + 1)) ((cz + 1) * (p.grid_size + 1) + cx)
          ((cz + 1) * (p.grid_size + 1) + (cx + 1)) := by
      rcases hedge with hex | hez
      · have hcx1 : cx + 1 = p.grid_size := by omega
        have hc11 : (11 : ℚ) ≤ (cx : ℚ) := by exact_mod_cast (by omega : 11 ≤ cx)
        have hxtl := hPtl.1
        rw [if_neg (Nat.ne_of_lt hcx)] at hxtl
        have hxbl := hPbl.1
        rw [if_neg (Nat.ne_of_lt hcx)] at hxbl
        have hxtr := hPtr.1
        rw [if_pos hcx1] at hxtr
        constructor
        · apply not_keepTriangle_right
          apply stretch_bound hs hc11
          right; left
          rw [hxtr, hxtl]
          ring
        · apply not_keepTriangle_left
          apply stretch_bound hs hc11
          right; left
          rw [hxtr, hxbl]
          ring
      · have hcz1 : cz + 1 = p.grid_size := by omega
        have hc11 : (11 : ℚ) ≤ (cz : ℚ) := by exact_mod_cast (by omega : 11 ≤ cz)
        have hztl := hPtl.2
        rw [if_neg (Nat.ne_of_lt hcz)] at hztl
        have hzbl := hPbl.2
        rw [if_pos hcz1] at hzbl
        have hztr := hPtr.2
        rw [if_neg (Nat.ne_of_lt hcz)] at hztr
        have hzbr := hPbr.2
        rw [if_pos hcz1] at hzbr
        constructor
        · apply not_keepTriangle_left
          apply stretch_bound hs hc11
          right; right; left
          rw [hztl, hzbl]
          ring
        · apply not_keepTriangle_right
          apply stretch_bound hs hc11
          right; right; right
          rw [hzbr, hztr]
          ring
    refine ⟨hnk.1, hnk.2, ?_, ?_⟩
    · intro hmem
      rw [update_filtered] at hmem
      have hk := keep_of_mem_triples_filterTriangles hmem
      simp only at hk
      rw [← update_vertices, new_grid_spacing] at hk
      exact hnk.1 hk
    · intro hmem
      rw [update_filtered] at hmem
      have hk := keep_of_mem_triples_filterTriangles hmem
      simp only at hk
      rw [← update_vertices, new_grid_spacing] at hk
      exact hnk.2 hk

/-- Witness for C10 (amended) at a concrete configuration: the 12×12-cell
unit-spacing grid satisfies the hypotheses, and the theorem yields that
the far-corner vertex of the first updated mesh sits at `−half = −6`. -/
theorem claim10_first_tick_edge_wrap_witness :
    ((0 : ℚ) < mediumPhysics.grid_spacing_m ∧ 12 ≤ mediumPhysics.grid_size
      ∧ (1 : ℚ)/100 < (mediumPhysics.grid_size : ℚ) * mediumPhysics.grid_spacing_m)
    ∧ ((((OceanGrid.new zeroNoise mediumPhysics).update 0 0 0 ⟨0, 0, 0⟩
        mediumPhysics).vertices.getD
          (0 * (mediumPhysics.grid_size + 1) + mediumPhysics.grid_size)
          default).position.x
      = -((mediumPhysics.grid_size : ℚ) * mediumPhysics.grid_spacing_m / 2)) := by
  have h1 : (0 : ℚ) < mediumPhysics.grid_spacing_m := by
    norm_num [mediumPhysics, OceanPhysics.default]
  have h2 : 12 ≤ mediumPhysics.grid_size := by
    norm_num [mediumPhysics, OceanPhysics.default]
  have h3 : (1 : ℚ)/100 < (mediumPhysics.grid_size : ℚ) * mediumPhysics.grid_spacing_m := by
    norm_num [mediumPhysics, OceanPhysics.default]
  exact ⟨⟨h1, h2, h3⟩,
    ((claim10_first_tick_edge_wrap zeroNoise mediumPhysics 0 0 0 h1 h2 h3).2.2.1
      0 (by omega)).2.1⟩

end Vibesurfer
